import Mathlib

/-!
# Verification of the lintstock-cli spreadsheet transformer

Shallow embedding of `src/scripts/spreadsheet-to-json.js` (the XLSX-based
parser, embedded below with an `X` suffix) and `src/unnamed/part_001` (the
ExcelJS-based parser, embedded with an `E` suffix), together with theorems
settling the frozen claims about the natural-language specification.

Modelling conventions, stated once:
* A spreadsheet cell is `CellVal`: empty (JavaScript `undefined`/`null`),
  a number (modelled as `Int`; the survey workbooks carry integer scores
  and question numbers), or a string.
* JavaScript truthiness, `String(·)`, `Number.parseInt`, `Number.isNaN(Number(·))`
  are modelled by explicit total functions below.  `Number(s)` is modelled for
  decimal literals (optional sign, digits with an optional fraction part);
  `Date` parsing is modelled as succeeding on ISO `YYYY-MM-DD` strings (where
  it round-trips to the same string) and failing elsewhere, which is the
  `NaN` branch of `formatDateToYMD` that passes the raw string through.
* JavaScript `Map` and plain-object insertion-order semantics are modelled by
  association lists (`alSet` replaces in place, keeping first-insertion
  position); `Set` by a duplicate-free list in insertion order.
* The ExcelJS row/header arrays are 1-indexed with a hole at index 0; since
  header and data cells shift together, behaviour on the abstract grid is
  index-invariant and both parsers are embedded over the same 0-indexed grid.
-/

/-- A decoded spreadsheet cell value. -/
inductive CellVal where
  | empty : CellVal
  | num : Int → CellVal
  | str : String → CellVal
deriving DecidableEq, Repr

/-- JavaScript truthiness of a cell value (`undefined`, `null`, `0`, `''` are falsy). -/
def truthy : CellVal → Bool
  | .empty => false
  | .num n => n != 0
  | .str s => s != ""

/-- The guard `value !== undefined && value !== null && value !== ''` used by the
`question_number` and `score` branches: unlike truthiness it accepts the number 0. -/
def presentCell : CellVal → Bool
  | .empty => false
  | .num _ => true
  | .str s => s != ""

/-- JavaScript `String(value)` on our cell domain. -/
def cellToString : CellVal → String
  | .empty => "undefined"
  | .num n => toString n
  | .str s => s

/-- `s.toLowerCase()` via the character list (the built-in `String.toLower`
does not reduce definitionally). -/
def jsToLower (s : String) : String :=
  String.mk (s.data.map Char.toLower)

/-- `s.trim()` via the character list. -/
def jsTrim (s : String) : String :=
  String.mk (((s.data.dropWhile Char.isWhitespace).reverse.dropWhile Char.isWhitespace).reverse)

/-- `s.slice(0, n)` via the character list. -/
def jsSlice (n : Nat) (s : String) : String :=
  String.mk (s.data.take n)

/-- Decimal digits of a character list interpreted as a natural number. -/
def digitsToNat (cs : List Char) : Nat :=
  cs.foldl (fun acc c => acc * 10 + (c.toNat - '0'.toNat)) 0

/-- JavaScript `Number.parseInt` on a string: skip leading whitespace, optional
sign, then leading decimal digits; `none` models `NaN`. -/
def parseIntStr (s : String) : Option Int :=
  let cs := s.data.dropWhile Char.isWhitespace
  let (neg, cs) : Bool × List Char :=
    match cs with
    | '-' :: t => (true, t)
    | '+' :: t => (false, t)
    | _ => (false, cs)
  let ds := cs.takeWhile Char.isDigit
  if ds.isEmpty then none
  else
    let v : Int := Int.ofNat (digitsToNat ds)
    some (if neg then -v else v)

/-- JavaScript `Number.parseInt(value)` on a cell (`NaN` is `none`). -/
def jsParseInt : CellVal → Option Int
  | .empty => none
  | .num n => some n
  | .str s => parseIntStr s

/-- `Number.parseInt(value) || 0`: the `NaN` case (and the harmless 0 case) yield 0. -/
def jsParseIntOr0 (v : CellVal) : Int :=
  (jsParseInt v).getD 0

/-- Is the (whitespace-trimmed, sign-stripped) string a decimal numeric literal
accepted by JavaScript `Number(·)`?  Digits with at most one point, at least one
digit overall. -/
def isDecLiteral (cs0 : List Char) : Bool :=
  let cs :=
    match cs0 with
    | c :: t => if c = '+' || c = '-' then t else cs0
    | [] => cs0
  let intPart := cs.takeWhile Char.isDigit
  match cs.drop intPart.length with
  | [] => !intPart.isEmpty
  | '.' :: frac => frac.all Char.isDigit && (!intPart.isEmpty || !frac.isEmpty)
  | _ => false

/-- `Number.isNaN(Number(value))` on a cell. -/
def jsNumIsNaN : CellVal → Bool
  | .empty => true
  | .num _ => false
  | .str s =>
    let t := s.data.dropWhile Char.isWhitespace |>.reverse.dropWhile Char.isWhitespace |>.reverse
    if t.isEmpty then false else !isDecLiteral t

/-- `value || ''`: keep a truthy value, otherwise the empty string. -/
def jsOrEmpty (v : CellVal) : CellVal :=
  if truthy v then v else .str ""

/-- Strip every `\[[a-zA-Z0-9_]+\]` token, as the global regex replace does:
at a literal `[`, a nonempty run of token characters followed by `]` is removed
and scanning resumes after it; otherwise the `[` is kept and scanning resumes
at the next character.  Structural recursion on a fuel argument (initialised to
the list length, which every recursive call strictly decreases below) so that
the function reduces definitionally. -/
def stripBracketsFuel : Nat → List Char → List Char
  | 0, l => l
  | _ + 1, [] => []
  | fuel + 1, c :: rest =>
    if c = '[' then
      let tok := rest.takeWhile (fun d => d.isAlphanum || d = '_')
      match rest.drop tok.length with
      | ']' :: after =>
        if tok.isEmpty then c :: stripBracketsFuel fuel rest
        else stripBracketsFuel fuel after
      | _ => c :: stripBracketsFuel fuel rest
    else
      c :: stripBracketsFuel fuel rest

/-- The bracket-token strip at full fuel. -/
def stripBrackets (l : List Char) : List Char :=
  stripBracketsFuel l.length l

/-- `String(value).replace(/\[[a-zA-Z0-9_]+\]/g, '').trim()`. -/
def cleanQuestionText (v : CellVal) : String :=
  jsTrim (String.mk (stripBrackets (cellToString v).data))

/-- First camel-case regex of the report-name derivation:
`replace(/([a-z])([A-Z0-9])/g, '$1 $2')` (the match consumes both characters). -/
def camelSplit1 : List Char → List Char
  | a :: b :: rest =>
    if a.isLower && (b.isUpper || b.isDigit) then a :: ' ' :: b :: camelSplit1 rest
    else a :: camelSplit1 (b :: rest)
  | l => l

/-- Second camel-case regex: `replace(/([A-Z])([A-Z][a-z])/g, '$1 $2')`
(the match consumes all three characters). -/
def camelSplit2 : List Char → List Char
  | a :: b :: c :: rest =>
    if a.isUpper && b.isUpper && c.isLower then a :: ' ' :: b :: c :: camelSplit2 rest
    else a :: camelSplit2 (b :: c :: rest)
  | l => l

/-- Derivation of `report_name` from a sheet name. -/
def reportNameOf (nm : String) : String :=
  jsTrim (String.mk (camelSplit2 (camelSplit1 nm.data)))

/-- Days-from-civil inverse (Gregorian), for `new Date(ms).toISOString().slice(0, 10)`
on a numeric cell.  Standard era-based algorithm with floor division. -/
def epochDaysToYMD (days : Int) : Int × Int × Int :=
  let z := days + 719468
  let era := Int.fdiv z 146097
  let doe := z - era * 146097
  let yoe := Int.fdiv (doe - Int.fdiv doe 1460 + Int.fdiv doe 36524 - Int.fdiv doe 146096) 365
  let y := yoe + era * 400
  let doy := doe - (365 * yoe + Int.fdiv yoe 4 - Int.fdiv yoe 100)
  let mp := Int.fdiv (5 * doy + 2) 153
  let d := doy - Int.fdiv (153 * mp + 2) 5 + 1
  let m := mp + (if mp < 10 then 3 else -9)
  (y + (if m ≤ 2 then 1 else 0), m, d)

/-- Zero-padded decimal rendering of a nonnegative component. -/
def padNum (width : Nat) (n : Int) : String :=
  let s := toString n.natAbs
  let pad := String.mk (List.replicate (width - s.length) '0')
  (if n < 0 then "-" else "") ++ pad ++ s

/-- `new Date(ms).toISOString().slice(0, 10)` for an integral millisecond timestamp. -/
def epochMillisToYMD (ms : Int) : String :=
  let (y, m, d) := epochDaysToYMD (Int.fdiv ms 86400000)
  padNum 4 y ++ "-" ++ padNum 2 m ++ "-" ++ padNum 2 d

/-- `formatDateToYMD`: falsy input gives `''`; a numeric timestamp is formatted;
a string either already is (or is passed through as) its own representation —
ISO `YYYY-MM-DD` strings round-trip to themselves and every other string is the
unparseable (`NaN`) branch returning the raw string, so both cases return `s`. -/
def formatDateToYMD : CellVal → String
  | .empty => ""
  | .num n => if n = 0 then "" else epochMillisToYMD n
  | .str s => s

/-- Association-list lookup (first occurrence), modelling `Map.get` / property access. -/
def alGet? {κ ν : Type} [DecidableEq κ] (k : κ) : List (κ × ν) → Option ν
  | [] => none
  | (k1, v1) :: t => if k1 = k then some v1 else alGet? k t

/-- `Map.set` / property assignment: replace the first occurrence in place
(keeping its position), else append. -/
def alSet {κ ν : Type} [DecidableEq κ] (k : κ) (v : ν) : List (κ × ν) → List (κ × ν)
  | [] => [(k, v)]
  | (k1, v1) :: t => if k1 = k then (k, v) :: t else (k1, v1) :: alSet k v t

/-- In-place mutation of the object stored at a key (no-op if absent). -/
def alModify {κ ν : Type} [DecidableEq κ] (k : κ) (f : ν → ν) : List (κ × ν) → List (κ × ν)
  | [] => []
  | (k1, v1) :: t => if k1 = k then (k1, f v1) :: t else (k1, v1) :: alModify k f t

/-- `Map.values()` / `Object.values()` in insertion order. -/
def alValues {κ ν : Type} (m : List (κ × ν)) : List ν :=
  m.map Prod.snd

/-- `Set.add` semantics on an insertion-ordered duplicate-free list. -/
def dedupAdd {α : Type} [DecidableEq α] (l : List α) (x : α) : List α :=
  if x ∈ l then l else l ++ [x]

/-- `s.includes(sub)` on character lists. -/
def inclChars (k : List Char) : List Char → Bool
  | [] => k.isEmpty
  | s =>
    match s with
    | [] => k.isEmpty
    | _ :: t => k.isPrefixOf s || inclChars k t

/-- JavaScript `norm.includes(key)`. -/
def strIncludes (s key : String) : Bool :=
  inclChars key.data s.data

/-- `normalizeHeader`: `String(header).toLowerCase().replace(/[^a-z0-9]/g, '')`. -/
def normalizeHeader (v : CellVal) : String :=
  String.mk ((jsToLower (cellToString v)).data.filter fun c => c.isLower || c.isDigit)

/-- `RAW_HEADER_MAP` in its source order. -/
def RAW_HEADER_MAP : List (String × String) :=
  [("Client Name", "client_name"),
   ("Created", "created_date"),
   ("Question Text", "question_text"),
   ("Question #", "question_number"),
   ("Question Number", "question_number"),
   ("Q Number", "question_number"),
   ("Q No", "question_number"),
   ("Q#", "question_number"),
   ("Sub-Question", "sub_question_text"),
   ("Sub Question", "sub_question_text"),
   ("category", "category"),
   ("Respondent", "respondent"),
   ("Position", "position"),
   ("Response", "score"),
   ("Comment", "comment"),
   ("Skip Reason", "skip_reason")]

/-- `HEADER_MAP = Object.fromEntries(entries.map(([k, v]) => [normalizeHeader(k), v]))`:
a later entry with an already-present key overwrites the value but keeps the
first-insertion position. -/
def HEADER_MAP : List (String × String) :=
  RAW_HEADER_MAP.foldl (fun m kv => alSet (normalizeHeader (.str kv.1)) kv.2 m) []

/-- `mapHeader`: exact lookup of the normalized header, else the first table key
(in insertion order) that is a substring of it, else `null`. -/
def mapHeader (v : CellVal) : Option String :=
  match alGet? (normalizeHeader v) HEADER_MAP with
  | some f => some f
  | none => (HEADER_MAP.find? fun kv => strIncludes (normalizeHeader v) kv.1).map Prod.snd

/-- XLSX parser's header-row mapping: `mapHeader(h) || normalizeHeader(h)`. -/
def headerFieldX (h : CellVal) : String :=
  (mapHeader h).getD (normalizeHeader h)

/-- ExcelJS parser's header-row mapping: `h ? mapHeader(h) || normalizeHeader(h) : null`;
`null` and `''` are behaviourally identical wherever a field name is consumed
(falsy guard, strict comparisons with real field names), so `null` is embedded as `''`. -/
def headerFieldE (h : CellVal) : String :=
  if truthy h then headerFieldX h else ""

/-- The mutable variables of one data-sheet pass: the three carry-forward
variables (`last*`) live across rows; the rest are re-initialised per row by
`initRow`. -/
structure RowState where
  lastQuestionNumber : Option Int
  lastQuestionText : String
  lastSubQuestionText : CellVal
  question_number : Option Int
  question_text : String
  sub_question_text : CellVal
  respondent : CellVal
  position : CellVal
  score : Option Int
  comment : CellVal
  skip_reason : CellVal
  response : CellVal
  newQuestionText : Bool
  explicitQuestionNumber : Bool
  foundQuestionNumber : Option Int
deriving DecidableEq, Repr

/-- Per-row initialisation of the loop-local variables from the carried state. -/
def initRow (st : RowState) : RowState :=
  { st with
    question_number := st.lastQuestionNumber
    question_text := st.lastQuestionText
    sub_question_text := st.lastSubQuestionText
    respondent := .str ""
    position := .str ""
    score := none
    comment := .str ""
    skip_reason := .str ""
    response := .str ""
    newQuestionText := false
    explicitQuestionNumber := false
    foundQuestionNumber := none }

/-- One column of the row loop (the branch conditions on `field` are mutually
exclusive string comparisons, so the independent `if` statements are an
if/else chain).  `hs`/`row` are the full header and row, needed by the
`question_text` branch's same-row sub-question lookahead. -/
def applyField (hs : List String) (row : List CellVal) (st : RowState) :
    String × CellVal → RowState
  | (f, v) =>
    if f = "question_number" then
      if presentCell v then
        match jsParseInt v with
        | some n => { st with foundQuestionNumber := some n, explicitQuestionNumber := true }
        | none => st
      else st
    else if f = "question_text" then
      if truthy v then
        if cleanQuestionText v ≠ st.lastQuestionText then
          if hs.findIdx (· = "sub_question_text") < hs.length ∧
              truthy (row.getD (hs.findIdx (· = "sub_question_text")) .empty) then
            { st with question_text := cleanQuestionText v,
                      lastQuestionText := cleanQuestionText v,
                      sub_question_text := row.getD (hs.findIdx (· = "sub_question_text")) .empty,
                      lastSubQuestionText := row.getD (hs.findIdx (· = "sub_question_text")) .empty,
                      newQuestionText := true }
          else
            { st with question_text := cleanQuestionText v,
                      lastQuestionText := cleanQuestionText v,
                      sub_question_text := .str "", lastSubQuestionText := .str "",
                      newQuestionText := true }
        else st
      else st
    else if f = "sub_question_text" then
      if truthy v then { st with sub_question_text := v, lastSubQuestionText := v } else st
    else if f = "respondent" then { st with respondent := jsOrEmpty v }
    else if f = "position" then { st with position := jsOrEmpty v }
    else if f = "score" then
      if presentCell v then
        if jsNumIsNaN v then { st with response := v }
        else { st with score := some (jsParseIntOr0 v), response := .str "" }
      else st
    else if f = "comment" then { st with comment := jsOrEmpty v }
    else if f = "skip_reason" then { st with skip_reason := jsOrEmpty v }
    else if f = "response" then
      if st.response = .str "" then { st with response := jsOrEmpty v } else st
    else st

/-- The `(field, cell)` pairs a row presents to the column loop, in column order. -/
def rowCells (hs : List String) (row : List CellVal) : List (String × CellVal) :=
  hs.enum.map fun cf => (cf.2, row.getD cf.1 .empty)

/-- Question-number resolution, evaluated after all columns are scanned. -/
def resolveQNum (st : RowState) : RowState :=
  if st.newQuestionText then
    if st.explicitQuestionNumber then
      { st with question_number := st.foundQuestionNumber,
                lastQuestionNumber := st.foundQuestionNumber }
    else
      { st with question_number := none, lastQuestionNumber := none }
  else if st.explicitQuestionNumber then
    { st with question_number := st.foundQuestionNumber,
              lastQuestionNumber := st.foundQuestionNumber }
  else
    { st with question_number := st.lastQuestionNumber }

/-- Full processing of one data row from the incoming carried state. -/
def processRowState (hs : List String) (row : List CellVal) (st : RowState) : RowState :=
  resolveQNum ((rowCells hs row).foldl (applyField hs row) (initRow st))

/-- Row acceptance: `respondent && String(respondent).trim() !== ''`. -/
def rowAccepted (st : RowState) : Bool :=
  truthy st.respondent && jsTrim (cellToString st.respondent) != ""

/-- A response object, optional keys omitted (`none`) when left unset. -/
structure ResponseObj where
  respondent : CellVal
  score : Option Int
  comment : Option CellVal
  skip_reason : Option CellVal
  response : Option CellVal
deriving DecidableEq, Repr

/-- `{ respondent }` plus each optional field only when its guard passes
(`score !== undefined && score !== null && score !== ''`; truthiness for the rest). -/
def buildResponseObj (st : RowState) : ResponseObj :=
  { respondent := st.respondent
    score := st.score
    comment := if truthy st.comment then some st.comment else none
    skip_reason := if truthy st.skip_reason then some st.skip_reason else none
    response := if truthy st.response then some st.response else none }

/-- A question entity. -/
structure QuestionObj where
  question_number : Option Int
  question_text : String
  sub_question_text : Option CellVal
  responses : List ResponseObj
deriving DecidableEq, Repr

/-- The question object created for a row (`sub_question_text` only when truthy). -/
def questionObjOf (st : RowState) : QuestionObj :=
  { question_number := st.question_number
    question_text := st.question_text
    sub_question_text := if truthy st.sub_question_text then some st.sub_question_text else none
    responses := [] }

/-- Rendering of an optional question number inside the template key (`null` for none). -/
def qnumToStr : Option Int → String
  | none => "null"
  | some n => toString n

/-- The grouping key `` `${question_number}|${question_text}|${sub_question_text}` ``. -/
def qKeyOf (st : RowState) : String :=
  qnumToStr st.question_number ++ "|" ++ st.question_text ++ "|" ++
    cellToString st.sub_question_text

/-- XLSX question-map step (`spreadsheet-to-json.js:224-239`): unconditionally
`set` a fresh question object for the key, then push the response into the
object now stored there. -/
def qStepX (qm : List (String × QuestionObj)) (st : RowState) : List (String × QuestionObj) :=
  let key := qKeyOf st
  alModify key (fun q => { q with responses := q.responses ++ [buildResponseObj st] })
    (alSet key (questionObjOf st) qm)

/-- ExcelJS question-map step (`part_001:218-236`): create the question object
only when the key is absent, then push the response. -/
def qStepE (qm : List (String × QuestionObj)) (st : RowState) : List (String × QuestionObj) :=
  let key := qKeyOf st
  let qm1 := if (alGet? key qm).isSome then qm else alSet key (questionObjOf st) qm
  alModify key (fun q => { q with responses := q.responses ++ [buildResponseObj st] }) qm1

/-- A respondee entry (`{ name: respondent, position }`; both keys always present). -/
structure Respondee where
  name : CellVal
  position : CellVal
deriving DecidableEq, Repr

/-- The accumulator threaded through the rows of one data sheet. -/
structure SheetAcc where
  st : RowState
  respondees : List (CellVal × Respondee)
  questions : List (String × QuestionObj)
deriving Repr

/-- One data row of the sheet pass: process the row, then on acceptance
record the respondee (first occurrence only) and update the question map. -/
def runRowsStep (qstep : List (String × QuestionObj) → RowState → List (String × QuestionObj))
    (hs : List String) (acc : SheetAcc) (row : List CellVal) : SheetAcc :=
  if rowAccepted (processRowState hs row acc.st) then
    { st := processRowState hs row acc.st,
      respondees :=
        if (alGet? (processRowState hs row acc.st).respondent acc.respondees).isSome then
          acc.respondees
        else
          alSet (processRowState hs row acc.st).respondent
            ⟨(processRowState hs row acc.st).respondent,
              (processRowState hs row acc.st).position⟩ acc.respondees,
      questions := qstep acc.questions (processRowState hs row acc.st) }
  else
    { acc with st := processRowState hs row acc.st }

/-- Process the data rows of one sheet, parameterised by the question-map step. -/
def runRows (qstep : List (String × QuestionObj) → RowState → List (String × QuestionObj))
    (hs : List String) (rows : List (List CellVal)) (acc : SheetAcc) : SheetAcc :=
  rows.foldl (runRowsStep qstep hs) acc

/-- The carried state at the top of a data sheet. -/
def initCarry : RowState :=
  { lastQuestionNumber := none, lastQuestionText := "", lastSubQuestionText := .str ""
    question_number := none, question_text := "", sub_question_text := .str ""
    respondent := .str "", position := .str "", score := none
    comment := .str "", skip_reason := .str "", response := .str ""
    newQuestionText := false, explicitQuestionNumber := false, foundQuestionNumber := none }

/-- A decoded sheet: its identifier and its grid of rows. -/
structure Sheet where
  name : String
  rows : List (List CellVal)
deriving DecidableEq, Repr, Inhabited

/-- A decoded workbook: the ordered sheets. -/
def Workbook : Type := List Sheet

/-- One report entity. -/
structure ReportObj where
  report_name : String
  questions : List QuestionObj
deriving DecidableEq, Repr

/-- The cross-sheet accumulator: the global respondee map and the report map. -/
structure DocAcc where
  respondees : List (CellVal × Respondee)
  reports : List (String × ReportObj)
deriving Repr

/-- The metadata sheet: sheet 0 (a default empty sheet when the list is empty,
in which case the parser has already failed the sheet-count check). -/
def sheet0 (wb : Workbook) : Sheet :=
  wb.headD default

/-- The header row of a data sheet (empty when the sheet has no rows). -/
def headerRow (s : Sheet) : List CellVal :=
  s.rows.headD []

/-- XLSX data-sheet processing: a sheet with fewer than 2 rows is skipped
before any report entry is created. -/
def processDataSheetX (acc : DocAcc) (s : Sheet) : DocAcc :=
  if s.rows.length < 2 then acc
  else
    let rname := reportNameOf s.name
    let hs := (headerRow s).map headerFieldX
    let res := runRows qStepX hs (s.rows.drop 1) ⟨initCarry, acc.respondees, []⟩
    { respondees := res.respondees,
      reports := alSet rname ⟨rname, alValues res.questions⟩ acc.reports }

/-- ExcelJS data-sheet processing: every data sheet yields a report entry
(an empty sheet yields an empty question list). -/
def processDataSheetE (acc : DocAcc) (s : Sheet) : DocAcc :=
  let rname := reportNameOf s.name
  let hs := (headerRow s).map headerFieldE
  let res := runRows qStepE hs (s.rows.drop 1) ⟨initCarry, acc.respondees, []⟩
  { respondees := res.respondees,
    reports := alSet rname ⟨rname, alValues res.questions⟩ acc.reports }

/-- XLSX metadata scan (`spreadsheet-to-json.js:112-118`): rows with fewer
than 2 cells are skipped; a `Client Name` row sets the raw value, a `Created`
row sets the formatted date; the last matching row wins. -/
def scanDetailsX (rows : List (List CellVal)) : CellVal × String :=
  rows.foldl
    (fun acc row =>
      if row.length < 2 then acc
      else
        let f := row.getD 0 .empty
        let v := row.getD 1 .empty
        let acc1 := if f = .str "Client Name" then (v, acc.2) else acc
        if f = .str "Created" then (acc1.1, formatDateToYMD v) else acc1)
    (.str "", "")

/-- ExcelJS metadata scan (`part_001:108-113`): every row is examined via
`getCell`, with no short-row skip (a matching row with a missing second cell
overwrites the value with `undefined`). -/
def scanDetailsE (rows : List (List CellVal)) : CellVal × String :=
  rows.foldl
    (fun acc row =>
      let f := row.getD 0 .empty
      let v := row.getD 1 .empty
      let acc1 := if f = .str "Client Name" then (v, acc.2) else acc
      if f = .str "Created" then (acc1.1, formatDateToYMD v) else acc1)
    (.str "", "")

/-- `getUnmatchedHeaders` (XLSX): over every data sheet with at least one row,
collect header cells whose `mapHeader` is `null` into an insertion-ordered set. -/
def unmatchedHeadersX (wb : Workbook) : List CellVal :=
  (wb.drop 1).foldl
    (fun acc s =>
      if s.rows.length < 1 then acc
      else (headerRow s).foldl
        (fun acc h => if (mapHeader h).isSome then acc else dedupAdd acc h) acc)
    []

/-- `getUnmatchedHeaders` (ExcelJS): over every data sheet, collect truthy
header cells whose `mapHeader` is `null`. -/
def unmatchedHeadersE (wb : Workbook) : List CellVal :=
  (wb.drop 1).foldl
    (fun acc s =>
      (headerRow s).foldl
        (fun acc h => if truthy h && (mapHeader h).isNone then dedupAdd acc h else acc) acc)
    []

/-- The assembled document (`unmatchedHeaders = []` models the absent key). -/
structure Document where
  client_name : CellVal
  created_date : String
  reports : List ReportObj
  respondees : List Respondee
  unmatchedHeaders : List CellVal
deriving DecidableEq, Repr

/-- The error kinds of `parseSpreadsheetBuffer`. -/
inductive ParseErr where
  | structuralSheets
  | structuralDetails
  | schemaError
deriving DecidableEq, Repr

/-- A JSON-like value, the domain of the Zod schema check. -/
inductive J where
  | null : J
  | num : Int → J
  | str : String → J
  | arr : List J → J
  | obj : List (String × J) → J

/-- The fields of a `J.obj`, or `none` for any other shape. -/
def jFields : J → Option (List (String × J))
  | .obj fs => some fs
  | _ => none

/-- A required key whose value must be a string (`z.string()`): any string,
including the empty one, passes. -/
def reqStr (fs : List (String × J)) (k : String) : Bool :=
  match alGet? k fs with
  | some (.str _) => true
  | _ => false

/-- An optional key (`z.string().optional()`): absent, or present as a string. -/
def optStr (fs : List (String × J)) (k : String) : Bool :=
  match alGet? k fs with
  | none => true
  | some (.str _) => true
  | _ => false

/-- An optional numeric key (`z.number().optional()`). -/
def optNum (fs : List (String × J)) (k : String) : Bool :=
  match alGet? k fs with
  | none => true
  | some (.num _) => true
  | _ => false

/-- A required nullable numeric key (`z.number().nullable()`). -/
def reqNumNullable (fs : List (String × J)) (k : String) : Bool :=
  match alGet? k fs with
  | some (.num _) => true
  | some .null => true
  | _ => false

/-- A required array key whose elements all satisfy the element check. -/
def reqArr (fs : List (String × J)) (k : String) (check : J → Bool) : Bool :=
  match alGet? k fs with
  | some (.arr xs) => xs.all check
  | _ => false

/-- The Zod response schema. -/
def checkResponseJ (j : J) : Bool :=
  match jFields j with
  | some fs =>
    reqStr fs "respondent" && optNum fs "score" && optStr fs "comment" &&
      optStr fs "skip_reason" && optStr fs "response"
  | none => false

/-- The Zod question schema. -/
def checkQuestionJ (j : J) : Bool :=
  match jFields j with
  | some fs =>
    reqNumNullable fs "question_number" && reqStr fs "question_text" &&
      optStr fs "sub_question_text" && reqArr fs "responses" checkResponseJ
  | none => false

/-- The Zod report schema. -/
def checkReportJ (j : J) : Bool :=
  match jFields j with
  | some fs => reqStr fs "report_name" && reqArr fs "questions" checkQuestionJ
  | none => false

/-- The Zod respondee schema. -/
def checkRespondeeJ (j : J) : Bool :=
  match jFields j with
  | some fs => reqStr fs "name" && optStr fs "position"
  | none => false

/-- `SpreadsheetSchema.parse` as a boolean check (only success/failure is observed). -/
def schemaCheck (j : J) : Bool :=
  match jFields j with
  | some fs =>
    reqStr fs "client_name" && reqStr fs "created_date" &&
      reqArr fs "reports" checkReportJ && reqArr fs "respondees" checkRespondeeJ
  | none => false

/-- JSON of a raw cell value (`undefined`/`null` collapse to `null`; both fail
every typed check identically). -/
def jCell : CellVal → J
  | .empty => .null
  | .num n => .num n
  | .str s => .str s

/-- JSON of a response object, keys in insertion order, unset keys omitted. -/
def jResponse (r : ResponseObj) : J :=
  .obj ([("respondent", jCell r.respondent)] ++
    (match r.score with | some n => [("score", J.num n)] | none => []) ++
    (match r.comment with | some c => [("comment", jCell c)] | none => []) ++
    (match r.skip_reason with | some c => [("skip_reason", jCell c)] | none => []) ++
    (match r.response with | some c => [("response", jCell c)] | none => []))

/-- JSON of a question object (the conditional `sub_question_text` key was
assigned after creation, so it sits last in insertion order). -/
def jQuestion (q : QuestionObj) : J :=
  .obj ([("question_number", match q.question_number with | some n => J.num n | none => J.null),
         ("question_text", J.str q.question_text),
         ("responses", J.arr (q.responses.map jResponse))] ++
    (match q.sub_question_text with | some c => [("sub_question_text", jCell c)] | none => []))

/-- JSON of a report object. -/
def jReport (r : ReportObj) : J :=
  .obj [("report_name", .str r.report_name), ("questions", .arr (r.questions.map jQuestion))]

/-- JSON of a respondee object. -/
def jRespondee (r : Respondee) : J :=
  .obj [("name", jCell r.name), ("position", jCell r.position)]

/-- JSON of `spreadsheetJson` — the document as passed to `SpreadsheetSchema.parse`
(without the `unmatchedHeaders` key, exactly as in the source). -/
def docJson (d : Document) : J :=
  .obj [("client_name", jCell d.client_name),
        ("created_date", .str d.created_date),
        ("reports", .arr (d.reports.map jReport)),
        ("respondees", .arr (d.respondees.map jRespondee))]

/-- The XLSX `parseSpreadsheetBuffer`. -/
def parseX (wb : Workbook) : Except ParseErr Document :=
  if wb.length < 2 then .error .structuralSheets
  else
    let scanned := scanDetailsX (sheet0 wb).rows
    if !truthy scanned.1 || scanned.2 == "" then .error .structuralDetails
    else
      let acc := (wb.drop 1).foldl processDataSheetX ⟨[], []⟩
      let core : Document :=
        { client_name := scanned.1, created_date := scanned.2,
          reports := alValues acc.reports, respondees := alValues acc.respondees,
          unmatchedHeaders := [] }
      let result := { core with unmatchedHeaders := unmatchedHeadersX wb }
      if schemaCheck (docJson core) then .ok result else .error .schemaError

/-- The ExcelJS `parseSpreadsheetBuffer`. -/
def parseE (wb : Workbook) : Except ParseErr Document :=
  if wb.length < 2 then .error .structuralSheets
  else
    let scanned := scanDetailsE (sheet0 wb).rows
    if !truthy scanned.1 || scanned.2 == "" then .error .structuralDetails
    else
      let acc := (wb.drop 1).foldl processDataSheetE ⟨[], []⟩
      let core : Document :=
        { client_name := scanned.1, created_date := scanned.2,
          reports := alValues acc.reports, respondees := alValues acc.respondees,
          unmatchedHeaders := [] }
      let result := { core with unmatchedHeaders := unmatchedHeadersE wb }
      if schemaCheck (docJson core) then .ok result else .error .schemaError

/-- Lexicographic code-point order on strings, the default `Array.prototype.sort`
comparator on strings. -/
def chLt : List Char → List Char → Bool
  | [], [] => false
  | [], _ :: _ => true
  | _ :: _, [] => false
  | a :: s, b :: t => if a = b then chLt s t else decide (a.toNat < b.toNat)

/-- String comparison used by `.sort()`. -/
def jsStrLt (a b : String) : Bool :=
  chLt a.data b.data

/-- Insert into a sorted list: `x` goes before the first element it is
strictly below. -/
def insertSorted (x : String) : List String → List String
  | [] => [x]
  | y :: t => if jsStrLt x y then x :: y :: t else y :: insertSorted x t

/-- `.sort()` with the default string comparator (insertion sort; the input
lists here are duplicate-free so stability is immaterial). -/
def sortJS (l : List String) : List String :=
  l.foldr insertSorted []

/-- One per-client accumulator entry of `compileCompaniesSummary`. -/
structure CompanyAcc where
  name : CellVal
  respondents : List CellVal
  years : List String
deriving DecidableEq, Repr

/-- One emitted client-summary entry. -/
structure CompanySummary where
  name : CellVal
  respondents : List CellVal
  years : List String
deriving DecidableEq, Repr

/-- Respondent accumulation of one document: ensure the bucket exists
(`if (!companies[client_name])`), then add every truthy respondee name to its
set in first-seen order. -/
def companiesAddNames (d : Document) (l : List CellVal) : List CellVal :=
  d.respondees.foldl (fun l r => if truthy r.name then dedupAdd l r.name else l) l

/-- Bucket update with one document's respondee names. -/
def companiesRespStep (d : Document) (m : List (String × CompanyAcc)) :
    List (String × CompanyAcc) :=
  alModify (cellToString d.client_name)
    (fun c => { c with respondents := companiesAddNames d c.respondents })
    (if (alGet? (cellToString d.client_name) m).isSome then m
     else alSet (cellToString d.client_name) ⟨d.client_name, [], []⟩ m)

/-- Year accumulation of one document: add the first 4 characters of a
non-empty `created_date` to the bucket's year set. -/
def companiesYearStep (d : Document) (m : List (String × CompanyAcc)) :
    List (String × CompanyAcc) :=
  if d.created_date ≠ "" then
    alModify (cellToString d.client_name)
      (fun c => { c with years := dedupAdd c.years (jsSlice 4 d.created_date) }) m
  else m

/-- The per-document step of `compileCompaniesSummary`.  The `companies` object
is keyed by the string coercion of `client_name`; a document with falsy
`client_name` is skipped entirely. -/
def companiesStep (m : List (String × CompanyAcc)) (d : Document) :
    List (String × CompanyAcc) :=
  if !truthy d.client_name then m
  else companiesYearStep d (companiesRespStep d m)

/-- `compileCompaniesSummary`: group per client, then emit respondents as
accumulated (insertion order) and years sorted. -/
def compileCompaniesSummary (docs : List Document) : List CompanySummary :=
  (docs.foldl companiesStep []).map fun kc =>
    ⟨kc.2.name, kc.2.respondents, sortJS kc.2.years⟩

instance {ε α : Type} [DecidableEq ε] [DecidableEq α] : DecidableEq (Except ε α)
  | .error a, .error b =>
    match decEq a b with
    | isTrue h => isTrue (by rw [h])
    | isFalse h => isFalse (fun hh => h (Except.error.inj hh))
  | .error _, .ok _ => isFalse (fun hh => Except.noConfusion hh)
  | .ok _, .error _ => isFalse (fun hh => Except.noConfusion hh)
  | .ok a, .ok b =>
    match decEq a b with
    | isTrue h => isTrue (by rw [h])
    | isFalse h => isFalse (fun hh => h (Except.ok.inj hh))

/-- Observation: the respondent of every response, per question, per report. -/
def respondentsPerQuestion (d : Document) : List (List (List CellVal)) :=
  d.reports.map fun r => r.questions.map fun q => q.responses.map fun resp => resp.respondent

/-- A workbook whose single data sheet has a 3-row question block in which only
the first row carries `question_number`/`question_text`. -/
def wbBlock3 : Workbook :=
  [⟨"Details", [[.str "Client Name", .str "Acme"], [.str "Created", .str "2023-01-01"]]⟩,
   ⟨"Sheet1", [[.str "Question #", .str "Question Text", .str "Respondent", .str "Response"],
               [.num 1, .str "Q1", .str "A", .num 5],
               [.empty, .empty, .str "B", .num 4],
               [.empty, .empty, .str "C", .num 3]]⟩]

/-- C1: on a data sheet whose 3-row question block carries
`question_number`/`question_text` only on row 1, the XLSX
`parseSpreadsheetBuffer` re-creates the question object on every accepted row
(`questionMap.set` is unconditional), so the single emitted Question holds only
the *last* respondent's Response — exactly the "one Response" outcome the claim
rules out — while the ExcelJS implementation (guarded by `questionMap.has`)
yields one Question with all 3 respondents' Responses as the claim states. -/
theorem c1_block3_one_question :
    (parseX wbBlock3).map respondentsPerQuestion = .ok [[[.str "C"]]] ∧
    (parseE wbBlock3).map respondentsPerQuestion =
      .ok [[[.str "A", .str "B", .str "C"]]] :=
  ⟨rfl, rfl⟩

/-- C2 counterexample: the two parser implementations disagree on the very
workbook of C1 (one Response kept versus three), so they are not equivalent. -/
theorem c2_counterexample : parseX wbBlock3 ≠ parseE wbBlock3 := by decide

/-- A workbook whose data sheet maps two columns to the overloaded `score`
field ("Response" exactly, "Response B" by substring fallback). -/
def wbTwoScoreCols : Workbook :=
  [⟨"Details", [[.str "Client Name", .str "Acme"], [.str "Created", .str "2023-01-01"]]⟩,
   ⟨"Sheet1", [[.str "Respondent", .str "Response", .str "Response B"],
               [.str "A", .num 5, .str "N/A"]]⟩]

/-- C4 counterexample: with two score-mapped columns in one row — the first
numeric, the second non-numeric — the emitted Response carries both a `score`
and a free-text `response`, violating the claimed mutual exclusion. -/
theorem c4_counterexample :
    (parseX wbTwoScoreCols).map
        (fun d => d.reports.map fun r => r.questions.map fun q =>
          q.responses.map fun resp => (resp.score, resp.response)) =
      .ok [[[(some 5, some (.str "N/A"))]]] :=
  rfl

/-- C8 counterexample: `SpreadsheetSchema` uses plain `z.string()` with no
non-emptiness refinement, so a document with an empty `client_name` — and one
whose Response has an empty `respondent` — both pass validation, contradicting
the claim that the Schema Validator fails on them. -/
theorem c8_counterexample :
    schemaCheck (docJson
      { client_name := .str "", created_date := "2020-01-01",
        reports := [], respondees := [], unmatchedHeaders := [] }) = true ∧
    schemaCheck (docJson
      { client_name := .str "Acme", created_date := "2020-01-01",
        reports := [⟨"R", [⟨none, "q", none, [⟨.str "", none, none, none, none⟩]⟩]⟩],
        respondees := [], unmatchedHeaders := [] }) = true :=
  ⟨rfl, rfl⟩

/-- Two Acme documents whose respondents arrive in non-alphabetical order. -/
def docsRespBA : List Document :=
  [⟨.str "Acme", "2023-01-01", [], [⟨.str "B", .str ""⟩], []⟩,
   ⟨.str "Acme", "2024-06-01", [], [⟨.str "A", .str ""⟩], []⟩]

/-- C9 counterexample: `compileCompaniesSummary` emits respondents in
first-seen insertion order (`Array.from(set)` with no sort), so the respondent
sequence here is `[B, A]`, not the sorted sequence the claim requires (the
years, by contrast, are sorted). -/
theorem c9_counterexample :
    compileCompaniesSummary docsRespBA =
      [⟨.str "Acme", [.str "B", .str "A"], ["2023", "2024"]⟩] ∧
    ([CellVal.str "B", CellVal.str "A"] ≠ [CellVal.str "A", CellVal.str "B"]) := by
  exact ⟨rfl, by decide⟩

/-- Lookup misses exactly when no entry carries the key. -/
theorem alGet?_eq_none_iff {κ ν : Type} [DecidableEq κ] (k : κ) (m : List (κ × ν)) :
    alGet? k m = none ↔ ∀ kv ∈ m, kv.1 ≠ k := by
  induction m with
  | nil => simp [alGet?]
  | cons hd tl ih =>
    obtain ⟨k1, v1⟩ := hd
    simp only [alGet?]
    by_cases h : k1 = k
    · subst h
      simp only [if_pos rfl]
      constructor
      · intro hh; exact absurd hh (by simp)
      · intro hh; exact absurd rfl (hh (k1, v1) (List.mem_cons_self _ _))
    · rw [if_neg h]
      simp [ih, h]

/-- C3: the overloaded score/text branch of the row loop.  For a non-empty
cell in a score-mapped column: a numeric value sets `score` to its integer
truncation (`parseInt || 0`, so an integer-parse `NaN` yields 0) and clears any
free-text `response`; a non-numeric value becomes the free-text `response`
untouched, and — starting from a row with no score yet — the built response
object then has no `score` key at all and carries the whole cell as `response`. -/
theorem c3_overloaded_score_field :
    ∀ (hs : List String) (row : List CellVal) (st : RowState) (v : CellVal),
      presentCell v = true →
      (jsNumIsNaN v = false →
        applyField hs row st ("score", v) =
          { st with score := some (jsParseIntOr0 v), response := .str "" }) ∧
      (jsNumIsNaN v = true →
        applyField hs row st ("score", v) = { st with response := v }) ∧
      (jsNumIsNaN v = false →
        (buildResponseObj (applyField hs row st ("score", v))).score =
            some (jsParseIntOr0 v) ∧
        (buildResponseObj (applyField hs row st ("score", v))).response = none) ∧
      (jsNumIsNaN v = true → st.score = none →
        (buildResponseObj (applyField hs row st ("score", v))).score = none ∧
        (buildResponseObj (applyField hs row st ("score", v))).response = some v) := by
  intro hs row st v hv
  have base : applyField hs row st ("score", v) =
      if presentCell v then
        (if jsNumIsNaN v then { st with response := v }
         else { st with score := some (jsParseIntOr0 v), response := .str "" })
      else st := rfl
  refine ⟨?_, ?_, ?_, ?_⟩
  · intro h; simp [base, hv, h]
  · intro h; simp [base, hv, h]
  · intro h; simp [base, hv, h, buildResponseObj, truthy]
  · intro h hsc
    have hb : applyField hs row st ("score", v) = { st with response := v } := by
      simp [base, hv, h]
    have hvt : truthy v = true := by
      cases v with
      | empty => simp [presentCell] at hv
      | num n => simp [jsNumIsNaN] at h
      | str s => exact hv
    simp [hb, buildResponseObj, hsc, hvt]

/-- C3 witness: cell `"4"` yields `score: 4` with the response cleared; cell
`"N/A"` yields `response: "N/A"` and no `score` key. -/
theorem c3_witness :
    applyField [] [] initCarry ("score", .str "4") =
      { initCarry with score := some 4, response := .str "" } ∧
    (buildResponseObj (applyField [] [] initCarry ("score", .str "N/A"))).score = none ∧
    (buildResponseObj (applyField [] [] initCarry ("score", .str "N/A"))).response =
      some (.str "N/A") :=
  ⟨(c3_overloaded_score_field [] [] initCarry (.str "4") rfl).1 rfl,
   (c3_overloaded_score_field [] [] initCarry (.str "N/A") rfl).2.2.2 rfl rfl⟩

/-- C5: the header normalizer and mapper.  `normalizeHeader` lower-cases and
keeps exactly the characters in `[a-z0-9]`; `mapHeader` prefers an exact hit in
the normalized table, otherwise takes the first table key (in the table's fixed
insertion order) that is a substring of the normalized header, and returns
`null` exactly when no key matches by either method. -/
theorem c5_header_mapping :
    ∀ s : String,
      (normalizeHeader (.str s)).data =
        (s.data.map Char.toLower).filter (fun c => c.isLower || c.isDigit) ∧
      (∀ f, alGet? (normalizeHeader (.str s)) HEADER_MAP = some f →
        mapHeader (.str s) = some f) ∧
      (alGet? (normalizeHeader (.str s)) HEADER_MAP = none →
        mapHeader (.str s) =
          (HEADER_MAP.find? fun kv => strIncludes (normalizeHeader (.str s)) kv.1).map
            Prod.snd) ∧
      (mapHeader (.str s) = none ↔
        ∀ kv ∈ HEADER_MAP, kv.1 ≠ normalizeHeader (.str s) ∧
          strIncludes (normalizeHeader (.str s)) kv.1 = false) := by
  intro s
  refine ⟨rfl, ?_, ?_, ?_⟩
  · intro f h; simp [mapHeader, h]
  · intro h; simp [mapHeader, h]
  · constructor
    · intro h
      intro kv hkv
      rcases hget : alGet? (normalizeHeader (.str s)) HEADER_MAP with _ | f
      · rcases hfind : HEADER_MAP.find? (fun kv => strIncludes (normalizeHeader (.str s)) kv.1)
            with _ | kv2
        · refine ⟨?_, ?_⟩
          · exact (alGet?_eq_none_iff _ _).mp hget kv hkv
          · have := List.find?_eq_none.mp hfind kv hkv
            simpa using this
        · exfalso
          simp [mapHeader, hget, hfind] at h
      · exfalso
        simp [mapHeader, hget] at h
    · intro h
      have hget : alGet? (normalizeHeader (.str s)) HEADER_MAP = none :=
        (alGet?_eq_none_iff _ _).mpr fun kv hkv => (h kv hkv).1
      have hfind : HEADER_MAP.find? (fun kv => strIncludes (normalizeHeader (.str s)) kv.1)
          = none :=
        List.find?_eq_none.mpr fun kv hkv => by simp [(h kv hkv).2]
      simp [mapHeader, hget, hfind]

/-- C5 witness: header `"Q#1"` has no exact table entry and resolves by
substring fallback (table key `"q"`) to `question_number`; an unrelated header
maps to `null`. -/
theorem c5_witness :
    mapHeader (.str "Q#1") = some "question_number" ∧
    mapHeader (.str "Totally Unrelated") = none :=
  ⟨(c5_header_mapping "Q#1").2.2.1 rfl,
   (c5_header_mapping "Totally Unrelated").2.2.2.mpr (by decide)⟩


/-- Observation: is the outcome one of the two structural errors? -/
def isStructuralErr : Except ParseErr Document → Bool
  | .error .structuralSheets => true
  | .error .structuralDetails => true
  | _ => false

/-- The success/schema-error tail of the parser is never a structural error. -/
theorem structErrAux (b : Bool) (r : Document) :
    isStructuralErr (if b then Except.ok r else Except.error ParseErr.schemaError) = false := by
  cases b <;> rfl

/-- C6: `parseSpreadsheetBuffer` fails with a structural error — producing no
document — exactly when the workbook has fewer than 2 sheets, or when after
scanning every `(field_name, value)` row of sheet 0 the resolved `client_name`
is still falsy or the resolved `created_date` is still empty; conversely any
produced document certifies that all the structural conditions held. -/
theorem c6_structural_errors :
    ∀ wb : Workbook,
      (isStructuralErr (parseX wb) = true ↔
        (wb.length < 2 ∨
          truthy (scanDetailsX ((sheet0 wb).rows)).1 = false ∨
          (scanDetailsX ((sheet0 wb).rows)).2 = "")) ∧
      (∀ d : Document, parseX wb = .ok d →
        2 ≤ wb.length ∧ truthy (scanDetailsX ((sheet0 wb).rows)).1 = true ∧
          (scanDetailsX ((sheet0 wb).rows)).2 ≠ "") := by
  intro wb
  by_cases h1 : wb.length < 2
  · have hx : parseX wb = .error .structuralSheets := by
      unfold parseX
      rw [if_pos h1]
    constructor
    · rw [hx]
      exact ⟨fun _ => Or.inl h1, fun _ => rfl⟩
    · intro d hd
      rw [hx] at hd
      exact absurd hd (by simp)
  · rcases ht : truthy (scanDetailsX ((sheet0 wb).rows)).1 with _ | _
    · have hx : parseX wb = .error .structuralDetails := by
        unfold parseX
        rw [if_neg h1, if_pos (by rw [ht]; rfl)]
      constructor
      · rw [hx]
        exact ⟨fun _ => Or.inr (Or.inl rfl), fun _ => rfl⟩
      · intro d hd
        rw [hx] at hd
        exact absurd hd (by simp)
    · by_cases hd : (scanDetailsX ((sheet0 wb).rows)).2 = ""
      · have hx : parseX wb = .error .structuralDetails := by
          unfold parseX
          rw [if_neg h1, if_pos (by rw [ht, hd]; rfl)]
        constructor
        · rw [hx]
          exact ⟨fun _ => Or.inr (Or.inr hd), fun _ => rfl⟩
        · intro d hdoc
          rw [hx] at hdoc
          exact absurd hdoc (by simp)
      · have hrhsF : ¬ (wb.length < 2 ∨
            (true : Bool) = false ∨
            (scanDetailsX ((sheet0 wb).rows)).2 = "") := by
          intro hr
          rcases hr with hr | hr | hr
          · exact h1 hr
          · exact absurd hr (by simp)
          · exact hd hr
        have hfalse : isStructuralErr (parseX wb) = false := by
          unfold parseX
          rw [if_neg h1, if_neg (by rw [ht]; simp [hd])]
          exact structErrAux _ _
        constructor
        · rw [hfalse]
          exact ⟨fun hh => absurd hh (by simp), fun hr => absurd hr (by exact hrhsF)⟩
        · intro d hdoc
          exact ⟨Nat.le_of_not_lt h1, rfl, hd⟩

/-- C6 witness: a one-sheet workbook is a structural error, and the success of
a well-formed workbook certifies its structural conditions. -/
theorem c6_witness :
    isStructuralErr (parseX [⟨"OnlyOne", []⟩]) = true ∧
    (2 ≤ wbBlock3.length ∧
      truthy (scanDetailsX ((sheet0 wbBlock3).rows)).1 = true ∧
      (scanDetailsX ((sheet0 wbBlock3).rows)).2 ≠ "") :=
  ⟨(c6_structural_errors [⟨"OnlyOne", []⟩]).1.mpr (Or.inl (by decide)),
   (c6_structural_errors wbBlock3).2
     { client_name := .str "Acme", created_date := "2023-01-01",
       reports := [⟨"Sheet 1", [⟨some 1, "Q1", none,
         [⟨.str "C", some 3, none, none, none⟩]⟩]⟩],
       respondees := [⟨.str "A", .str ""⟩, ⟨.str "B", .str ""⟩, ⟨.str "C", .str ""⟩],
       unmatchedHeaders := [] } rfl⟩

/-- Observation: everything in a parsed document except the unmatched-header
set (which a skipped sheet's header row may still contribute to). -/
def docCore (d : Document) : CellVal × String × List ReportObj × List Respondee :=
  (d.client_name, d.created_date, d.reports, d.respondees)

/-- C10: a data sheet with fewer than 2 rows is skipped before any report
entry is created: inserting such a sheet anywhere among the data sheets leaves
the parsed document's reports (and respondees, client fields, and error
behaviour) unchanged, so the reports sequence can be shorter than the number
of data sheets and never contains a report built from such a sheet. -/
theorem c10_short_sheet_no_report :
    ∀ (l1 l2 : List Sheet) (s : Sheet),
      l1 ≠ [] → 2 ≤ (l1 ++ l2).length → s.rows.length < 2 →
      (parseX (l1 ++ s :: l2)).map docCore = (parseX (l1 ++ l2)).map docCore := by
  intro l1 l2 s h1 h2 h3
  cases l1 with
  | nil => exact absurd rfl h1
  | cons d0 l1x =>
    have hlen1 : ¬ ((d0 :: l1x ++ s :: l2).length < 2) := by
      simp only [List.cons_append, List.length_cons, List.length_append]
      omega
    have hlen2 : ¬ ((d0 :: l1x ++ l2).length < 2) := by
      simp only [List.cons_append, List.length_cons] at h2 ⊢
      simp only [List.length_append] at h2 ⊢
      omega
    have hstep : ∀ acc, processDataSheetX acc s = acc := by
      intro acc
      simp [processDataSheetX, h3]
    have hfold : ∀ i : DocAcc,
        (l1x ++ s :: l2).foldl processDataSheetX i = (l1x ++ l2).foldl processDataSheetX i := by
      intro i
      rw [List.foldl_append, List.foldl_append, List.foldl_cons, hstep]
    have hsheet0 : sheet0 (d0 :: l1x ++ s :: l2) = sheet0 (d0 :: l1x ++ l2) := by
      simp [sheet0]
    have hdrop : (d0 :: l1x ++ s :: l2).drop 1 = l1x ++ s :: l2 := by
      simp
    have hdrop2 : (d0 :: l1x ++ l2).drop 1 = l1x ++ l2 := by
      simp
    unfold parseX
    rw [if_neg hlen1, if_neg hlen2, hsheet0, hdrop, hdrop2, hfold]
    by_cases hb : (!truthy (scanDetailsX (sheet0 (d0 :: l1x ++ l2)).rows).1 ||
        (scanDetailsX (sheet0 (d0 :: l1x ++ l2)).rows).2 == "") = true
    · rw [if_pos hb, if_pos hb]
    · rw [if_neg hb, if_neg hb]
      rcases hsc : schemaCheck _ with _ | _
      · rw [if_neg (by rw [hsc]; simp), if_neg (by rw [hsc]; simp)]
      · rw [if_pos hsc, if_pos hsc]
        rfl

/-- A column whose field is not `question_text`, and is `sub_question_text`
only with a falsy cell, leaves the three sub-question/question-text components
untouched. -/
theorem applyField_untouched (hs : List String) (row : List CellVal) (st : RowState)
    (f : String) (v : CellVal) (hq : f ≠ "question_text")
    (hsub : f = "sub_question_text" → truthy v = false) :
    (applyField hs row st (f, v)).sub_question_text = st.sub_question_text ∧
    (applyField hs row st (f, v)).lastSubQuestionText = st.lastSubQuestionText ∧
    (applyField hs row st (f, v)).lastQuestionText = st.lastQuestionText := by
  simp only [applyField]
  split_ifs <;>
    first
      | exact ⟨rfl, rfl, rfl⟩
      | (cases jsParseInt v <;> exact ⟨rfl, rfl, rfl⟩)
      | exact absurd ‹f = "question_text"› hq
      | exact absurd ‹truthy v = true› (by simp [hsub ‹f = "sub_question_text"›])

/-- The `sub_question_text` column with a truthy cell always overrides the
row's sub-question and the carried `lastSubQuestionText`. -/
theorem applyField_sub_truthy (hs : List String) (row : List CellVal) (st : RowState)
    (v : CellVal) (hv : truthy v = true) :
    applyField hs row st ("sub_question_text", v) =
      { st with sub_question_text := v, lastSubQuestionText := v } := by
  have base : applyField hs row st ("sub_question_text", v) =
      if truthy v then { st with sub_question_text := v, lastSubQuestionText := v }
      else st := rfl
  rw [base, if_pos hv]

/-- Unfolding of the `question_text` branch of the column loop. -/
theorem applyField_qt_base (hs : List String) (row : List CellVal) (st : RowState)
    (v : CellVal) :
    applyField hs row st ("question_text", v) =
      if truthy v then
        if cleanQuestionText v ≠ st.lastQuestionText then
          if hs.findIdx (· = "sub_question_text") < hs.length ∧
              truthy (row.getD (hs.findIdx (· = "sub_question_text")) .empty) then
            { st with question_text := cleanQuestionText v,
                      lastQuestionText := cleanQuestionText v,
                      sub_question_text := row.getD (hs.findIdx (· = "sub_question_text")) .empty,
                      lastSubQuestionText := row.getD (hs.findIdx (· = "sub_question_text")) .empty,
                      newQuestionText := true }
          else
            { st with question_text := cleanQuestionText v,
                      lastQuestionText := cleanQuestionText v,
                      sub_question_text := .str "", lastSubQuestionText := .str "",
                      newQuestionText := true }
        else st
      else st := rfl

/-- A question-text boundary whose same-row sub-question cell is absent or
falsy clears both the row's sub-question and the carried state. -/
theorem applyField_qt_boundary_clear (hs : List String) (row : List CellVal)
    (st : RowState) (v : CellVal) (hv : truthy v = true)
    (hne : cleanQuestionText v ≠ st.lastQuestionText)
    (hsubcell : hs.findIdx (· = "sub_question_text") < hs.length →
      truthy (row.getD (hs.findIdx (· = "sub_question_text")) .empty) = false) :
    applyField hs row st ("question_text", v) =
      { st with question_text := cleanQuestionText v,
                lastQuestionText := cleanQuestionText v,
                sub_question_text := .str "", lastSubQuestionText := .str "",
                newQuestionText := true } := by
  rw [applyField_qt_base hs row st v, if_pos hv, if_pos hne,
    if_neg (fun hc => by rw [hsubcell hc.1] at hc; exact absurd hc.2 (by simp))]

/-- A question-text boundary whose same-row sub-question cell is present and
truthy adopts that cell into both the row's sub-question and the carried state. -/
theorem applyField_qt_boundary_set (hs : List String) (row : List CellVal)
    (st : RowState) (v : CellVal) (hv : truthy v = true)
    (hne : cleanQuestionText v ≠ st.lastQuestionText)
    (hfound : hs.findIdx (· = "sub_question_text") < hs.length)
    (htr : truthy (row.getD (hs.findIdx (· = "sub_question_text")) .empty) = true) :
    applyField hs row st ("question_text", v) =
      { st with question_text := cleanQuestionText v,
                lastQuestionText := cleanQuestionText v,
                sub_question_text := row.getD (hs.findIdx (· = "sub_question_text")) .empty,
                lastSubQuestionText := row.getD (hs.findIdx (· = "sub_question_text")) .empty,
                newQuestionText := true } := by
  rw [applyField_qt_base hs row st v, if_pos hv, if_pos hne, if_pos ⟨hfound, htr⟩]

/-- Outside a boundary (falsy cell, or cleaned text equal to the carried text)
the question-text column changes nothing. -/
theorem applyField_qt_noop (hs : List String) (row : List CellVal) (st : RowState)
    (v : CellVal) (h : truthy v = false ∨ cleanQuestionText v = st.lastQuestionText) :
    applyField hs row st ("question_text", v) = st := by
  rw [applyField_qt_base hs row st v]
  rcases h with h | h
  · rw [if_neg (by simp [h])]
  · rcases htv : truthy v with _ | _
    · rw [if_neg (by simp)]
    · rw [if_pos rfl, if_neg (fun hne => hne h)]

/-- `resolveQNum` never touches the sub-question components. -/
theorem resolveQNum_sub (st : RowState) :
    (resolveQNum st).sub_question_text = st.sub_question_text ∧
    (resolveQNum st).lastSubQuestionText = st.lastSubQuestionText := by
  unfold resolveQNum
  split_ifs <;> exact ⟨rfl, rfl⟩

/-- Through a run of columns none of which is `question_text` and whose
`sub_question_text` cells (if any) are falsy, the three components survive. -/
theorem foldFields_untouched (hs : List String) (row : List CellVal) :
    ∀ (l : List (String × CellVal)) (st : RowState),
      (∀ fv ∈ l, fv.1 ≠ "question_text" ∧ (fv.1 = "sub_question_text" → truthy fv.2 = false)) →
      (l.foldl (applyField hs row) st).sub_question_text = st.sub_question_text ∧
      (l.foldl (applyField hs row) st).lastSubQuestionText = st.lastSubQuestionText ∧
      (l.foldl (applyField hs row) st).lastQuestionText = st.lastQuestionText := by
  intro l
  induction l with
  | nil => intro st _; exact ⟨rfl, rfl, rfl⟩
  | cons fv t ih =>
    intro st hl
    have h1 := hl fv (List.mem_cons_self _ _)
    have hstep := applyField_untouched hs row st fv.1 fv.2 h1.1 h1.2
    have ht := ih (applyField hs row st fv) fun x hx => hl x (List.mem_cons_of_mem _ hx)
    rw [List.foldl_cons]
    refine ⟨?_, ?_, ?_⟩
    · rw [ht.1]
      exact hstep.1
    · rw [ht.2.1]
      exact hstep.2.1
    · rw [ht.2.2]
      exact hstep.2.2

/-- The fields a row presents are exactly the mapped header list, in order. -/
theorem rowCells_map_fst (hs : List String) (row : List CellVal) :
    (rowCells hs row).map Prod.fst = hs := by
  unfold rowCells
  rw [List.map_map]
  exact List.enum_map_snd hs

/-- A boundary row (unique `question_text` column, cell truthy, cleaned text
differing from the carried text) whose sub-question cells are all falsy ends
with both sub-question components cleared. -/
theorem foldFields_boundary_clears (hs : List String) (row : List CellVal) :
    ∀ (l1 l2 : List (String × CellVal)) (v : CellVal) (st : RowState),
      (∀ fv ∈ l1, fv.1 ≠ "question_text" ∧
        (fv.1 = "sub_question_text" → truthy fv.2 = false)) →
      (∀ fv ∈ l2, fv.1 ≠ "question_text" ∧
        (fv.1 = "sub_question_text" → truthy fv.2 = false)) →
      truthy v = true → cleanQuestionText v ≠ st.lastQuestionText →
      (hs.findIdx (· = "sub_question_text") < hs.length →
        truthy (row.getD (hs.findIdx (· = "sub_question_text")) .empty) = false) →
      ((l1 ++ ("question_text", v) :: l2).foldl (applyField hs row) st).sub_question_text
          = .str "" ∧
      ((l1 ++ ("question_text", v) :: l2).foldl (applyField hs row) st).lastSubQuestionText
          = .str "" := by
  intro l1 l2 v st h1 h2 hv hne hcell
  rw [List.foldl_append, List.foldl_cons]
  have hpre := foldFields_untouched hs row l1 st h1
  have hb := applyField_qt_boundary_clear hs row (l1.foldl (applyField hs row) st) v hv
    (by rw [hpre.2.2]; exact hne) hcell
  rw [hb]
  have hpost := foldFields_untouched hs row l2
    { l1.foldl (applyField hs row) st with
        question_text := cleanQuestionText v, lastQuestionText := cleanQuestionText v,
        sub_question_text := .str "", lastSubQuestionText := .str "",
        newQuestionText := true } h2
  exact ⟨hpost.1, hpost.2.1⟩

/-- One column step keeps an adopted sub-question value `v`, provided the
column is not itself a sub-question column and the row's (first) sub-question
cell holds `v`. -/
theorem applyField_keeps_sub (hs : List String) (row : List CellVal) (st : RowState)
    (f : String) (w v : CellVal) (hf : f ≠ "sub_question_text")
    (hfound : hs.findIdx (· = "sub_question_text") < hs.length)
    (hcv : row.getD (hs.findIdx (· = "sub_question_text")) .empty = v)
    (hvt : truthy v = true)
    (hsub : st.sub_question_text = v) (hlsub : st.lastSubQuestionText = v) :
    (applyField hs row st (f, w)).sub_question_text = v ∧
    (applyField hs row st (f, w)).lastSubQuestionText = v := by
  by_cases hq : f = "question_text"
  · subst hq
    rcases htv : truthy w with _ | _
    · rw [applyField_qt_noop hs row st w (Or.inl htv)]
      exact ⟨hsub, hlsub⟩
    · by_cases hne : cleanQuestionText w = st.lastQuestionText
      · rw [applyField_qt_noop hs row st w (Or.inr hne)]
        exact ⟨hsub, hlsub⟩
      · rw [applyField_qt_boundary_set hs row st w htv hne hfound (by rw [hcv]; exact hvt)]
        exact ⟨hcv, hcv⟩
  · have h := applyField_untouched hs row st f w hq (fun hh => absurd hh hf)
    exact ⟨by rw [h.1]; exact hsub, by rw [h.2.1]; exact hlsub⟩

/-- A run of columns none of which is a sub-question column keeps an adopted
sub-question value. -/
theorem foldFields_keeps_sub (hs : List String) (row : List CellVal) (v : CellVal)
    (hfound : hs.findIdx (· = "sub_question_text") < hs.length)
    (hcv : row.getD (hs.findIdx (· = "sub_question_text")) .empty = v)
    (hvt : truthy v = true) :
    ∀ (l : List (String × CellVal)) (st : RowState),
      (∀ fv ∈ l, fv.1 ≠ "sub_question_text") →
      st.sub_question_text = v → st.lastSubQuestionText = v →
      (l.foldl (applyField hs row) st).sub_question_text = v ∧
      (l.foldl (applyField hs row) st).lastSubQuestionText = v := by
  intro l
  induction l with
  | nil => intro st _ hsub hlsub; exact ⟨hsub, hlsub⟩
  | cons fv t ih =>
    intro st hl hsub hlsub
    rw [List.foldl_cons]
    have hstep := applyField_keeps_sub hs row st fv.1 fv.2 v
      (hl fv (List.mem_cons_self _ _)) hfound hcv hvt hsub hlsub
    exact ih (applyField hs row st fv) (fun x hx => hl x (List.mem_cons_of_mem _ hx))
      hstep.1 hstep.2

/-- C7: sub-question handling of the row reconstructor.  Part 1: a row that is
a new-question boundary (its unique `question_text` cell truthy, cleaned text
differing from the carried `lastQuestionText`) and whose sub-question cells
are all empty or absent clears both the row's sub-question and the carried
`lastSubQuestionText` — no inheritance from the previous block.  Part 2: on
any row whose (unique) `sub_question_text` cell is non-empty, that cell
overrides the row's sub-question and updates `lastSubQuestionText`, whether or
not the row is a boundary. -/
theorem c7_sub_question_reset_and_override :
    ∀ (hs : List String) (row : List CellVal) (st : RowState),
      (∀ (l1 l2 : List (String × CellVal)) (v : CellVal),
        rowCells hs row = l1 ++ ("question_text", v) :: l2 →
        (∀ fv ∈ l1 ++ l2, fv.1 ≠ "question_text" ∧
          (fv.1 = "sub_question_text" → truthy fv.2 = false)) →
        truthy v = true → cleanQuestionText v ≠ st.lastQuestionText →
        (hs.findIdx (· = "sub_question_text") < hs.length →
          truthy (row.getD (hs.findIdx (· = "sub_question_text")) .empty) = false) →
        (processRowState hs row st).sub_question_text = .str "" ∧
        (processRowState hs row st).lastSubQuestionText = .str "") ∧
      (∀ (l1 l2 : List (String × CellVal)) (v : CellVal),
        rowCells hs row = l1 ++ ("sub_question_text", v) :: l2 →
        (∀ fv ∈ l2, fv.1 ≠ "sub_question_text") →
        truthy v = true →
        row.getD (hs.findIdx (· = "sub_question_text")) .empty = v →
        (processRowState hs row st).sub_question_text = v ∧
        (processRowState hs row st).lastSubQuestionText = v) := by
  intro hs row st
  constructor
  · intro l1 l2 v hdec hothers hv hne hcell
    unfold processRowState
    rcases resolveQNum_sub ((rowCells hs row).foldl (applyField hs row) (initRow st)) with
      ⟨hr1, hr2⟩
    rw [hr1, hr2, hdec]
    exact foldFields_boundary_clears hs row l1 l2 v (initRow st)
      (fun fv hfv => hothers fv (List.mem_append_left _ hfv))
      (fun fv hfv => hothers fv (List.mem_append_right _ hfv))
      hv hne hcell
  · intro l1 l2 v hdec hl2 hv hcv
    have hmem : "sub_question_text" ∈ hs := by
      rw [← rowCells_map_fst hs row, hdec]
      simp
    have hfound : hs.findIdx (· = "sub_question_text") < hs.length :=
      List.findIdx_lt_length_of_exists ⟨_, hmem, by simp⟩
    unfold processRowState
    rcases resolveQNum_sub ((rowCells hs row).foldl (applyField hs row) (initRow st)) with
      ⟨hr1, hr2⟩
    rw [hr1, hr2, hdec]
    rw [List.foldl_append, List.foldl_cons]
    rw [applyField_sub_truthy hs row (l1.foldl (applyField hs row) (initRow st)) v hv]
    exact foldFields_keeps_sub hs row v hfound hcv hv l2 _ hl2 rfl rfl

/-- C7 witness: a carried state with question "Old Q" and sub-question
"Old Sub".  A boundary row ("New Q") with an empty sub-question cell clears
both components; a non-boundary row ("Old Q") with cell "Sub X" overrides
both. -/
theorem c7_witness :
    ((processRowState ["question_text", "sub_question_text", "respondent"]
        [.str "New Q", .empty, .str "A"]
        { initCarry with lastQuestionText := "Old Q",
                         lastSubQuestionText := .str "Old Sub" }).sub_question_text
        = .str "" ∧
      (processRowState ["question_text", "sub_question_text", "respondent"]
        [.str "New Q", .empty, .str "A"]
        { initCarry with lastQuestionText := "Old Q",
                         lastSubQuestionText := .str "Old Sub" }).lastSubQuestionText
        = .str "") ∧
    ((processRowState ["question_text", "sub_question_text", "respondent"]
        [.str "Old Q", .str "Sub X", .str "A"]
        { initCarry with lastQuestionText := "Old Q",
                         lastSubQuestionText := .str "Old Sub" }).sub_question_text
        = .str "Sub X" ∧
      (processRowState ["question_text", "sub_question_text", "respondent"]
        [.str "Old Q", .str "Sub X", .str "A"]
        { initCarry with lastQuestionText := "Old Q",
                         lastSubQuestionText := .str "Old Sub" }).lastSubQuestionText
        = .str "Sub X") :=
  ⟨(c7_sub_question_reset_and_override
      ["question_text", "sub_question_text", "respondent"]
      [.str "New Q", .empty, .str "A"]
      { initCarry with lastQuestionText := "Old Q",
                       lastSubQuestionText := .str "Old Sub" }).1
    [] [("sub_question_text", .empty), ("respondent", .str "A")] (.str "New Q")
    (by decide) (by decide) (by decide) (by decide) (by decide),
   (c7_sub_question_reset_and_override
      ["question_text", "sub_question_text", "respondent"]
      [.str "Old Q", .str "Sub X", .str "A"]
      { initCarry with lastQuestionText := "Old Q",
                       lastSubQuestionText := .str "Old Sub" }).2
    [("question_text", .str "Old Q")] [("respondent", .str "A")] (.str "Sub X")
    (by decide) (by decide) (by decide) (by decide)⟩

/-- Members of an `alSet` result are the new pair or old members. -/
theorem alSet_cases {κ ν : Type} [DecidableEq κ] (k : κ) (v : ν) :
    ∀ m : List (κ × ν), ∀ kv ∈ alSet k v m, kv = (k, v) ∨ kv ∈ m := by
  intro m
  induction m with
  | nil => intro kv hkv; simpa [alSet] using hkv
  | cons hd tl ih =>
    intro kv hkv
    unfold alSet at hkv
    by_cases h : hd.1 = k
    · rw [if_pos h] at hkv
      rcases List.mem_cons.mp hkv with h1 | h1
      · exact Or.inl h1
      · exact Or.inr (List.mem_cons_of_mem _ h1)
    · rw [if_neg h] at hkv
      rcases List.mem_cons.mp hkv with h1 | h1
      · exact Or.inr (h1 ▸ List.mem_cons_self _ _)
      · rcases ih kv h1 with h2 | h2
        · exact Or.inl h2
        · exact Or.inr (List.mem_cons_of_mem _ h2)

/-- Members of an `alModify` result are old members or a modified old member. -/
theorem alModify_cases {κ ν : Type} [DecidableEq κ] (k : κ) (f : ν → ν) :
    ∀ m : List (κ × ν), ∀ kv ∈ alModify k f m,
      kv ∈ m ∨ ∃ v0, (kv.1, v0) ∈ m ∧ kv = (kv.1, f v0) := by
  intro m
  induction m with
  | nil => intro kv hkv; simpa [alModify] using hkv
  | cons hd tl ih =>
    intro kv hkv
    unfold alModify at hkv
    by_cases h : hd.1 = k
    · rw [if_pos h] at hkv
      rcases List.mem_cons.mp hkv with h1 | h1
      · exact Or.inr ⟨hd.2, by rw [h1]; exact ⟨List.mem_cons_self _ _, rfl⟩⟩
      · exact Or.inl (List.mem_cons_of_mem _ h1)
    · rw [if_neg h] at hkv
      rcases List.mem_cons.mp hkv with h1 | h1
      · exact Or.inl (h1 ▸ List.mem_cons_self _ _)
      · rcases ih kv h1 with h2 | h2
        · exact Or.inl (List.mem_cons_of_mem _ h2)
        · rcases h2 with ⟨v0, hv0, hkv2⟩
          exact Or.inr ⟨v0, List.mem_cons_of_mem _ hv0, hkv2⟩

/-- A successful lookup comes from a member. -/
theorem alGet?_mem {κ ν : Type} [DecidableEq κ] (k : κ) :
    ∀ m : List (κ × ν), ∀ v, alGet? k m = some v → (k, v) ∈ m := by
  intro m
  induction m with
  | nil => intro v hv; simp [alGet?] at hv
  | cons hd tl ih =>
    obtain ⟨k1, v1⟩ := hd
    intro v hv
    unfold alGet? at hv
    by_cases h : k1 = k
    · rw [if_pos h] at hv
      rw [← h, ← Option.some.inj hv]
      exact List.mem_cons_self _ _
    · rw [if_neg h] at hv
      exact List.mem_cons_of_mem _ (ih v hv)

/-- The `mapHeader` fallback chain can only return a value stored in the table. -/
theorem mapHeader_mem_values (h : CellVal) (f : String) :
    mapHeader h = some f → ∃ kv ∈ HEADER_MAP, kv.2 = f := by
  intro hm
  unfold mapHeader at hm
  rcases hget : alGet? (normalizeHeader h) HEADER_MAP with _ | g
  · rw [hget] at hm
    rcases hfind : HEADER_MAP.find? (fun kv => strIncludes (normalizeHeader h) kv.1)
        with _ | kv
    · rw [hfind] at hm
      simp at hm
    · rw [hfind] at hm
      simp only [Option.map] at hm
      exact ⟨kv, List.mem_of_find?_eq_some hfind, Option.some.inj hm⟩
  · rw [hget] at hm
    exact ⟨(normalizeHeader h, g), alGet?_mem _ _ _ hget, Option.some.inj hm⟩

/-- No header cell can ever map to the field name `"response"`: the table's
values do not contain it, and a normalized header spelled `"response"` is an
exact table hit mapping to `score`. -/
theorem headerFieldX_ne_response (h : CellVal) : headerFieldX h ≠ "response" := by
  unfold headerFieldX
  rcases hm : mapHeader h with _ | f
  · simp only [Option.getD]
    intro heq
    rcases hget : alGet? (normalizeHeader h) HEADER_MAP with _ | g
    · rw [heq] at hget
      exact absurd hget (by decide)
    · unfold mapHeader at hm
      rw [hget] at hm
      simp at hm
  · simp only [Option.getD]
    intro heq
    rcases mapHeader_mem_values h f hm with ⟨kv, hkv, hkv2⟩
    rw [heq] at hkv2
    have : ∀ kv ∈ HEADER_MAP, kv.2 ≠ "response" := by decide
    exact this kv hkv hkv2

/-- Every optional field a built response carries is truthy (the build guards
each with truthiness), hence never an empty string or a null placeholder. -/
theorem buildResponseObj_truthy (st : RowState) :
    (∀ c, (buildResponseObj st).comment = some c → truthy c = true) ∧
    (∀ c, (buildResponseObj st).skip_reason = some c → truthy c = true) ∧
    (∀ c, (buildResponseObj st).response = some c → truthy c = true) := by
  have key : ∀ x c : CellVal, (if truthy x then some x else none) = some c →
      truthy c = true := by
    intro x c hc
    rcases h : truthy x with _ | _
    · rw [h] at hc
      simp at hc
    · rw [h] at hc
      simp at hc
      rw [← hc]
      exact h
  exact ⟨fun c hc => key st.comment c hc, fun c hc => key st.skip_reason c hc,
    fun c hc => key st.response c hc⟩

/-- A column that maps to neither `score` nor `response` leaves the row's
score and free-text response untouched. -/
theorem applyField_score_resp_preserved (hs : List String) (row : List CellVal)
    (st : RowState) (f : String) (v : CellVal)
    (h1 : f ≠ "score") (h2 : f ≠ "response") :
    (applyField hs row st (f, v)).score = st.score ∧
    (applyField hs row st (f, v)).response = st.response := by
  simp only [applyField]
  split_ifs <;>
    first
      | exact ⟨rfl, rfl⟩
      | (cases jsParseInt v <;> exact ⟨rfl, rfl⟩)
      | exact absurd ‹f = "score"› h1
      | exact absurd ‹f = "response"› h2

/-- Unfolding of the overloaded `score` branch of the column loop. -/
theorem applyField_score_base (hs : List String) (row : List CellVal)
    (st : RowState) (v : CellVal) :
    applyField hs row st ("score", v) =
      if presentCell v then
        (if jsNumIsNaN v then { st with response := v }
         else { st with score := some (jsParseIntOr0 v), response := .str "" })
      else st := rfl

/-- Through a run of columns with no `response` column and at most one `score`
column, a row that starts with no score ends in a state where a set score
forces a cleared free-text response. -/
theorem foldFields_excl (hs : List String) (row : List CellVal) :
    ∀ (l : List (String × CellVal)) (st : RowState),
      (∀ fv ∈ l, fv.1 ≠ "response") →
      (((l.map Prod.fst).count "score" ≤ 1 ∧ st.score = none) ∨
        ((l.map Prod.fst).count "score" = 0 ∧
          (st.score.isSome → st.response = .str ""))) →
      ((l.foldl (applyField hs row) st).score.isSome →
        (l.foldl (applyField hs row) st).response = .str "") := by
  intro l
  induction l with
  | nil =>
    intro st _ hinv
    simp only [List.foldl_nil]
    rcases hinv with ⟨_, hsc⟩ | ⟨_, hE⟩
    · intro hsome
      rw [hsc] at hsome
      exact absurd hsome (by simp)
    · exact hE
  | cons fv t ih =>
    intro st hresp hinv
    rw [List.foldl_cons]
    by_cases hf : fv.1 = "score"
    · have hcount : ((fv.1 :: t.map Prod.fst).count "score") =
          (t.map Prod.fst).count "score" + 1 := by
        rw [hf]
        simp [List.count_cons]
      rcases hinv with ⟨hle, hsc⟩ | ⟨hzero, _⟩
      · have ht0 : (t.map Prod.fst).count "score" = 0 := by
          rw [List.map_cons, hcount] at hle
          omega
        obtain ⟨f1, v1⟩ := fv
        simp only [] at hf
        subst hf
        rw [applyField_score_base]
        rcases hp : presentCell v1 with _ | _
        · rw [if_neg (by simp)]
          exact ih st (fun x hx => hresp x (List.mem_cons_of_mem _ hx))
            (Or.inl ⟨by omega, hsc⟩)
        · rw [if_pos rfl]
          rcases hnan : jsNumIsNaN v1 with _ | _
          · rw [if_neg (by simp)]
            exact ih _ (fun x hx => hresp x (List.mem_cons_of_mem _ hx))
              (Or.inr ⟨ht0, fun _ => rfl⟩)
          · rw [if_pos rfl]
            exact ih _ (fun x hx => hresp x (List.mem_cons_of_mem _ hx))
              (Or.inl ⟨by omega, hsc⟩)
      · exfalso
        rw [List.map_cons, hcount] at hzero
        omega
    · have hstep := applyField_score_resp_preserved hs row st fv.1 fv.2 hf
        (hresp fv (List.mem_cons_self _ _))
      have hcount : ((fv.1 :: t.map Prod.fst).count "score") =
          (t.map Prod.fst).count "score" := by
        simp [List.count_cons, hf]
      rcases hinv with ⟨hle, hsc⟩ | ⟨hzero, hE⟩
      · exact ih _ (fun x hx => hresp x (List.mem_cons_of_mem _ hx))
          (Or.inl ⟨by rw [List.map_cons, hcount] at hle; exact hle,
            by rw [hstep.1]; exact hsc⟩)
      · exact ih _ (fun x hx => hresp x (List.mem_cons_of_mem _ hx))
          (Or.inr ⟨by rw [List.map_cons, hcount] at hzero; exact hzero,
            fun hsome => by
              rw [hstep.2]
              exact hE (by rw [← hstep.1]; exact hsome)⟩)

/-- `resolveQNum` never touches the score or the free-text response. -/
theorem resolveQNum_score_resp (st : RowState) :
    (resolveQNum st).score = st.score ∧ (resolveQNum st).response = st.response := by
  unfold resolveQNum
  split_ifs <;> exact ⟨rfl, rfl⟩

/-- A property holding of every response stored in a question map. -/
def RespPropQ (P : ResponseObj → Prop) (qm : List (String × QuestionObj)) : Prop :=
  ∀ kq ∈ qm, ∀ r ∈ kq.2.responses, P r

/-- A property holding of every response stored in a report map. -/
def RespPropR (P : ResponseObj → Prop) (rm : List (String × ReportObj)) : Prop :=
  ∀ kr ∈ rm, ∀ q ∈ kr.2.questions, ∀ r ∈ q.responses, P r

/-- The XLSX question-map step only adds the freshly built response. -/
theorem qStepX_prop (P : ResponseObj → Prop) (qm : List (String × QuestionObj))
    (st : RowState) (hqm : RespPropQ P qm) (hnew : P (buildResponseObj st)) :
    RespPropQ P (qStepX qm st) := by
  intro kq hkq r hr
  unfold qStepX at hkq
  rcases alModify_cases _ _ _ kq hkq with h1 | ⟨v0, hv0, hkq2⟩
  · rcases alSet_cases _ _ _ kq h1 with h2 | h2
    · rw [h2] at hr
      simp [questionObjOf] at hr
    · exact hqm kq h2 r hr
  · rcases alSet_cases _ _ _ (kq.1, v0) hv0 with h2 | h2
    · have hv0q : v0 = questionObjOf st := by
        have := congrArg Prod.snd h2
        simpa using this
      rw [hkq2] at hr
      simp only [hv0q, questionObjOf] at hr
      simp at hr
      rw [hr]
      exact hnew
    · rw [hkq2] at hr
      simp only [] at hr
      rcases List.mem_append.mp hr with h3 | h3
      · exact hqm (kq.1, v0) h2 r h3
      · rw [List.mem_singleton.mp h3]
        exact hnew

/-- Response-property preservation through the rows of one sheet. -/
theorem runRows_prop (P : ResponseObj → Prop) (hs : List String) :
    (∀ (row : List CellVal) (st0 : RowState),
      P (buildResponseObj (processRowState hs row st0))) →
    ∀ (rows : List (List CellVal)) (acc : SheetAcc),
      RespPropQ P acc.questions → RespPropQ P (runRows qStepX hs rows acc).questions := by
  intro hP rows
  induction rows with
  | nil => intro acc hacc; exact hacc
  | cons row rest ih =>
    intro acc hacc
    unfold runRows
    rw [List.foldl_cons]
    have hstep : RespPropQ P (runRowsStep qStepX hs acc row).questions := by
      unfold runRowsStep
      split_ifs with hacc2 hrsp
      · exact qStepX_prop P acc.questions _ hacc (hP row acc.st)
      · exact qStepX_prop P acc.questions _ hacc (hP row acc.st)
      · exact hacc
    exact ih (runRowsStep qStepX hs acc row) hstep

/-- Response-property preservation through one data sheet of the XLSX parser. -/
theorem processDataSheetX_prop (P : ResponseObj → Prop) (acc : DocAcc) (s : Sheet)
    (hP : ∀ (row : List CellVal) (st0 : RowState),
      P (buildResponseObj (processRowState ((headerRow s).map headerFieldX) row st0)))
    (hacc : RespPropR P acc.reports) :
    RespPropR P (processDataSheetX acc s).reports := by
  unfold processDataSheetX
  split_ifs with hshort
  · exact hacc
  · intro kr hkr q hq r hr
    rcases alSet_cases _ _ _ kr hkr with h1 | h1
    · rw [h1] at hq
      simp only [] at hq
      rcases List.mem_map.mp hq with ⟨kq, hkq, hkq2⟩
      have hrows := runRows_prop P ((headerRow s).map headerFieldX) hP (s.rows.drop 1)
        ⟨initCarry, acc.respondees, []⟩ (by intro kq2 hkq2; simp at hkq2)
      exact hrows kq hkq r (hkq2 ▸ hr)
    · exact hacc kr h1 q hq r hr

/-- Response-property preservation through the whole data-sheet fold. -/
theorem foldSheets_prop (P : ResponseObj → Prop) :
    ∀ (sheets : List Sheet) (acc : DocAcc),
      (∀ s ∈ sheets, ∀ (row : List CellVal) (st0 : RowState),
        P (buildResponseObj (processRowState ((headerRow s).map headerFieldX) row st0))) →
      RespPropR P acc.reports →
      RespPropR P (sheets.foldl processDataSheetX acc).reports := by
  intro sheets
  induction sheets with
  | nil => intro acc _ hacc; exact hacc
  | cons s rest ih =>
    intro acc hP hacc
    rw [List.foldl_cons]
    exact ih _ (fun s2 hs2 => hP s2 (List.mem_cons_of_mem _ hs2))
      (processDataSheetX_prop P acc s (hP s (List.mem_cons_self _ _)) hacc)

/-- Inversion of a successful XLSX parse: the document is the assembled core
plus the unmatched-header set. -/
theorem parseX_ok_inv (wb : Workbook) (d : Document) (h : parseX wb = .ok d) :
    d = { client_name := (scanDetailsX (sheet0 wb).rows).1,
          created_date := (scanDetailsX (sheet0 wb).rows).2,
          reports := alValues ((wb.drop 1).foldl processDataSheetX ⟨[], []⟩).reports,
          respondees := alValues ((wb.drop 1).foldl processDataSheetX ⟨[], []⟩).respondees,
          unmatchedHeaders := unmatchedHeadersX wb } := by
  by_cases h1 : wb.length < 2
  · rw [show parseX wb = .error .structuralSheets from by unfold parseX; rw [if_pos h1]] at h
    exact absurd h (by simp)
  · by_cases h2 : (!truthy (scanDetailsX (sheet0 wb).rows).1 ||
        (scanDetailsX (sheet0 wb).rows).2 == "") = true
    · rw [show parseX wb = .error .structuralDetails from by
        unfold parseX; rw [if_neg h1, if_pos h2]] at h
      exact absurd h (by simp)
    · have hx : parseX wb =
          (if schemaCheck (docJson
              { client_name := (scanDetailsX (sheet0 wb).rows).1,
                created_date := (scanDetailsX (sheet0 wb).rows).2,
                reports := alValues ((wb.drop 1).foldl processDataSheetX ⟨[], []⟩).reports,
                respondees := alValues ((wb.drop 1).foldl processDataSheetX ⟨[], []⟩).respondees,
                unmatchedHeaders := [] }) then
            Except.ok
              { client_name := (scanDetailsX (sheet0 wb).rows).1,
                created_date := (scanDetailsX (sheet0 wb).rows).2,
                reports := alValues ((wb.drop 1).foldl processDataSheetX ⟨[], []⟩).reports,
                respondees := alValues ((wb.drop 1).foldl processDataSheetX ⟨[], []⟩).respondees,
                unmatchedHeaders := unmatchedHeadersX wb }
          else Except.error ParseErr.schemaError) := by
        unfold parseX
        rw [if_neg h1, if_neg h2]
      rw [hx] at h
      split_ifs at h
      exact (Except.ok.inj h).symm

/-- A row processed under headers with no `response` column and at most one
`score` column never yields a response carrying both a score and free text. -/
theorem processRow_excl (hs : List String) (row : List CellVal) (st0 : RowState)
    (hcount : hs.count "score" ≤ 1) (hnoresp : ∀ f ∈ hs, f ≠ "response") :
    ¬((buildResponseObj (processRowState hs row st0)).score.isSome = true ∧
      (buildResponseObj (processRowState hs row st0)).response.isSome = true) := by
  intro hboth
  rcases hboth with ⟨hsome, hrsp⟩
  unfold processRowState at hsome hrsp
  have hres := resolveQNum_score_resp
    ((rowCells hs row).foldl (applyField hs row) (initRow st0))
  have hE := foldFields_excl hs row (rowCells hs row) (initRow st0)
    (fun fv hfv => by
      have hmem : fv.1 ∈ hs := by
        rw [← rowCells_map_fst hs row]
        exact List.mem_map_of_mem _ hfv
      exact hnoresp fv.1 hmem)
    (Or.inl ⟨by rw [rowCells_map_fst]; exact hcount, rfl⟩)
  have h1 : (resolveQNum ((rowCells hs row).foldl (applyField hs row) (initRow st0))).score.isSome
      = true := hsome
  rw [hres.1] at h1
  have h2 : ((rowCells hs row).foldl (applyField hs row) (initRow st0)).response = .str "" :=
    hE h1
  have h3 : (buildResponseObj
      (resolveQNum ((rowCells hs row).foldl (applyField hs row) (initRow st0)))).response
      = none := by
    unfold buildResponseObj
    simp only []
    rw [hres.2, h2]
    rfl
  rw [h3] at hrsp
  exact absurd hrsp (by simp)

/-- The serialized form of a response never renders `score` as an empty
string or null: whenever the JSON object carries a `"score"` key, its value
is a JSON number (possibly 0). -/
theorem jResponse_score_num (r : ResponseObj) :
    ∀ fs, jResponse r = J.obj fs → ∀ x, alGet? "score" fs = some x →
      ∃ n : Int, x = J.num n := by
  obtain ⟨resp, sc, co, sk, re⟩ := r
  rcases sc with _ | n
  · rcases co with _ | c1 <;> rcases sk with _ | c2 <;> rcases re with _ | c3 <;>
      · intro fs hfs x hx
        simp only [jResponse, List.cons_append, List.nil_append] at hfs
        injection hfs with hfs2
        rw [← hfs2] at hx
        simp [alGet?] at hx
  · rcases co with _ | c1 <;> rcases sk with _ | c2 <;> rcases re with _ | c3 <;>
      · intro fs hfs x hx
        simp only [jResponse, List.cons_append, List.nil_append] at hfs
        injection hfs with hfs2
        rw [← hfs2] at hx
        simp [alGet?] at hx
        exact ⟨n, hx.symm⟩

/-- C4 amended: over every successfully parsed document, no optional field of
any Response is ever serialized as an empty string or null: a present
`comment`/`skip_reason`/`response` always carries a truthy value (so never the
empty string and never null), and a present `score` is always rendered as a
JSON number (possibly 0, but never an empty string and never null); and —
provided no data sheet maps two columns to the overloaded `score` field — at
most one of `score`/`response` is present on any Response.  (With two
score-mapped columns the original mutual-exclusion claim fails, see the
counterexample.) -/
theorem c4_amended :
    ∀ (wb : Workbook) (d : Document), parseX wb = .ok d →
      (∀ rep ∈ d.reports, ∀ q ∈ rep.questions, ∀ r ∈ q.responses,
        (∀ c, r.comment = some c → truthy c = true) ∧
        (∀ c, r.skip_reason = some c → truthy c = true) ∧
        (∀ c, r.response = some c → truthy c = true) ∧
        (∀ fs, jResponse r = J.obj fs → ∀ x, alGet? "score" fs = some x →
          ∃ n : Int, x = J.num n)) ∧
      ((∀ s ∈ wb.drop 1, ((headerRow s).map headerFieldX).count "score" ≤ 1) →
        ∀ rep ∈ d.reports, ∀ q ∈ rep.questions, ∀ r ∈ q.responses,
          ¬(r.score.isSome = true ∧ r.response.isSome = true)) := by
  intro wb d hok
  have hshape := parseX_ok_inv wb d hok
  constructor
  · intro rep hrep q hq r hr
    have hfold := foldSheets_prop
      (fun r => (∀ c, r.comment = some c → truthy c = true) ∧
        (∀ c, r.skip_reason = some c → truthy c = true) ∧
        (∀ c, r.response = some c → truthy c = true))
      (wb.drop 1) ⟨[], []⟩
      (fun s _ row st0 => buildResponseObj_truthy _)
      (by intro kr hkr; simp at hkr)
    rw [hshape] at hrep
    have hrep2 : rep ∈ List.map Prod.snd
        ((wb.drop 1).foldl processDataSheetX ⟨[], []⟩).reports := hrep
    rcases List.mem_map.mp hrep2 with ⟨kr, hkr, hkr2⟩
    have h3 := hfold kr hkr q (by rw [hkr2]; exact hq) r hr
    exact ⟨h3.1, h3.2.1, h3.2.2, jResponse_score_num r⟩
  · intro hcounts rep hrep q hq r hr
    have hfold := foldSheets_prop
      (fun r => ¬(r.score.isSome = true ∧ r.response.isSome = true))
      (wb.drop 1) ⟨[], []⟩
      (fun s hsmem row st0 => processRow_excl _ row st0 (hcounts s hsmem)
        (fun f hf => by
          rcases List.mem_map.mp hf with ⟨h0, _, hh⟩
          rw [← hh]
          exact headerFieldX_ne_response h0))
      (by intro kr hkr; simp at hkr)
    rw [hshape] at hrep
    have hrep2 : rep ∈ List.map Prod.snd
        ((wb.drop 1).foldl processDataSheetX ⟨[], []⟩).reports := hrep
    rcases List.mem_map.mp hrep2 with ⟨kr, hkr, hkr2⟩
    exact hfold kr hkr q (by rw [hkr2]; exact hq) r hr

/-- C4 witness: the parsed 3-row-block workbook satisfies both amended parts
at its concrete response. -/
theorem c4_witness :
    ¬((⟨.str "C", some 3, none, none, none⟩ : ResponseObj).score.isSome = true ∧
      (⟨.str "C", some 3, none, none, none⟩ : ResponseObj).response.isSome = true) :=
  (c4_amended wbBlock3
    { client_name := .str "Acme", created_date := "2023-01-01",
      reports := [⟨"Sheet 1", [⟨some 1, "Q1", none,
        [⟨.str "C", some 3, none, none, none⟩]⟩]⟩],
      respondees := [⟨.str "A", .str ""⟩, ⟨.str "B", .str ""⟩, ⟨.str "C", .str ""⟩],
      unmatchedHeaders := [] } rfl).2 (by decide)
    ⟨"Sheet 1", [⟨some 1, "Q1", none, [⟨.str "C", some 3, none, none, none⟩]⟩]⟩ (by decide)
    ⟨some 1, "Q1", none, [⟨.str "C", some 3, none, none, none⟩]⟩ (by decide)
    ⟨.str "C", some 3, none, none, none⟩ (by decide)

/-- C10 witness: a concrete workbook where inserting a 1-row data sheet leaves
the parsed core unchanged. -/
theorem c10_witness :
    (parseX ([⟨"D", [[CellVal.str "Client Name", CellVal.str "Acme"],
                     [CellVal.str "Created", CellVal.str "2023-01-01"]]⟩] ++
        (⟨"Short", [[CellVal.str "Respondent"]]⟩ : Sheet) ::
        [⟨"Data", [[CellVal.str "Respondent"], [CellVal.str "A"]]⟩])).map docCore =
      (parseX ([⟨"D", [[CellVal.str "Client Name", CellVal.str "Acme"],
                       [CellVal.str "Created", CellVal.str "2023-01-01"]]⟩] ++
        [⟨"Data", [[CellVal.str "Respondent"], [CellVal.str "A"]]⟩])).map docCore :=
  c10_short_sheet_no_report _ _ _ (by decide) (by decide) (by decide)

/-- A JSON value that is a string. -/
def JIsStr (j : J) : Prop :=
  ∃ s, j = .str s

/-- A JSON value that is a number. -/
def JIsNum (j : J) : Prop :=
  ∃ n, j = .num n

/-- The type discipline the validator enforces on one response object:
`respondent` a (possibly empty) string, the optional fields typed when
present. -/
def ResponseTyped (j : J) : Prop :=
  ∃ fs, j = .obj fs ∧
    (∃ s, alGet? "respondent" fs = some (.str s)) ∧
    (∀ x, alGet? "score" fs = some x → JIsNum x) ∧
    (∀ x, alGet? "comment" fs = some x → JIsStr x) ∧
    (∀ x, alGet? "skip_reason" fs = some x → JIsStr x) ∧
    (∀ x, alGet? "response" fs = some x → JIsStr x)

/-- The type discipline on one question object. -/
def QuestionTyped (j : J) : Prop :=
  ∃ fs, j = .obj fs ∧
    (∃ x, alGet? "question_number" fs = some x ∧ (JIsNum x ∨ x = .null)) ∧
    (∃ s, alGet? "question_text" fs = some (.str s)) ∧
    (∀ x, alGet? "sub_question_text" fs = some x → JIsStr x) ∧
    (∃ xs, alGet? "responses" fs = some (.arr xs) ∧ ∀ r ∈ xs, ResponseTyped r)

/-- The type discipline on one report object. -/
def ReportTyped (j : J) : Prop :=
  ∃ fs, j = .obj fs ∧
    (∃ s, alGet? "report_name" fs = some (.str s)) ∧
    (∃ xs, alGet? "questions" fs = some (.arr xs) ∧ ∀ q ∈ xs, QuestionTyped q)

/-- The type discipline on one respondee object. -/
def RespondeeTyped (j : J) : Prop :=
  ∃ fs, j = .obj fs ∧
    (∃ s, alGet? "name" fs = some (.str s)) ∧
    (∀ x, alGet? "position" fs = some x → JIsStr x)

/-- The type discipline on the whole document: required (possibly empty)
strings `client_name`/`created_date` and the two typed arrays — with no
non-emptiness requirement anywhere. -/
def DocumentTyped (j : J) : Prop :=
  ∃ fs, j = .obj fs ∧
    (∃ s, alGet? "client_name" fs = some (.str s)) ∧
    (∃ s, alGet? "created_date" fs = some (.str s)) ∧
    (∃ xs, alGet? "reports" fs = some (.arr xs) ∧ ∀ r ∈ xs, ReportTyped r) ∧
    (∃ xs, alGet? "respondees" fs = some (.arr xs) ∧ ∀ r ∈ xs, RespondeeTyped r)

/-- `reqStr` demands exactly a present string value. -/
theorem reqStr_iff (fs : List (String × J)) (k : String) :
    reqStr fs k = true ↔ ∃ s, alGet? k fs = some (.str s) := by
  rcases h : alGet? k fs with _ | v
  · simp [reqStr, h]
  · cases v <;> simp [reqStr, h]

/-- `optStr` demands a string when the key is present. -/
theorem optStr_iff (fs : List (String × J)) (k : String) :
    optStr fs k = true ↔ ∀ x, alGet? k fs = some x → JIsStr x := by
  rcases h : alGet? k fs with _ | v
  · simp [optStr, h]
  · cases v <;> simp [optStr, h, JIsStr]

/-- `optNum` demands a number when the key is present. -/
theorem optNum_iff (fs : List (String × J)) (k : String) :
    optNum fs k = true ↔ ∀ x, alGet? k fs = some x → JIsNum x := by
  rcases h : alGet? k fs with _ | v
  · simp [optNum, h]
  · cases v <;> simp [optNum, h, JIsNum]

/-- `reqNumNullable` demands a present number or null. -/
theorem reqNumNullable_iff (fs : List (String × J)) (k : String) :
    reqNumNullable fs k = true ↔
      ∃ x, alGet? k fs = some x ∧ (JIsNum x ∨ x = .null) := by
  rcases h : alGet? k fs with _ | v
  · simp [reqNumNullable, h]
  · cases v <;> simp [reqNumNullable, h, JIsNum]

/-- `reqArr` demands a present array with every element passing the check. -/
theorem reqArr_iff (fs : List (String × J)) (k : String) (check : J → Bool) :
    reqArr fs k check = true ↔
      ∃ xs, alGet? k fs = some (.arr xs) ∧ ∀ x ∈ xs, check x = true := by
  rcases h : alGet? k fs with _ | v
  · simp [reqArr, h]
  · cases v <;> simp [reqArr, h, List.all_eq_true]

/-- The response checker decides exactly the response type discipline. -/
theorem checkResponseJ_iff (j : J) : checkResponseJ j = true ↔ ResponseTyped j := by
  cases j <;> simp [checkResponseJ, jFields, ResponseTyped, Bool.and_eq_true,
    reqStr_iff, optStr_iff, optNum_iff, and_assoc]

/-- The question checker decides exactly the question type discipline. -/
theorem checkQuestionJ_iff (j : J) : checkQuestionJ j = true ↔ QuestionTyped j := by
  cases j <;>
    simp [checkQuestionJ, jFields, QuestionTyped, Bool.and_eq_true, reqStr_iff,
      optStr_iff, reqNumNullable_iff, reqArr_iff, checkResponseJ_iff, and_assoc]

/-- The report checker decides exactly the report type discipline. -/
theorem checkReportJ_iff (j : J) : checkReportJ j = true ↔ ReportTyped j := by
  cases j <;>
    simp [checkReportJ, jFields, ReportTyped, Bool.and_eq_true, reqStr_iff,
      reqArr_iff, checkQuestionJ_iff, and_assoc]

/-- The respondee checker decides exactly the respondee type discipline. -/
theorem checkRespondeeJ_iff (j : J) : checkRespondeeJ j = true ↔ RespondeeTyped j := by
  cases j <;>
    simp [checkRespondeeJ, jFields, RespondeeTyped, Bool.and_eq_true, reqStr_iff,
      optStr_iff, and_assoc]

/-- C8 amended: the Schema Validator checks types only — it succeeds exactly
when `client_name`/`created_date` are strings (empty allowed), `reports` and
`respondees` are arrays of the stated shapes, with `question_number` integer
or null, `question_text`/`respondent` strings (empty allowed) and every
optional field string- or number-typed when present.  Non-emptiness of
`client_name`, `created_date` or `respondent` is not enforced by the
validator (see the counterexample); it is guaranteed upstream by the
structural check and the row-acceptance rule. -/
theorem c8_amended : ∀ j : J, schemaCheck j = true ↔ DocumentTyped j := by
  intro j
  cases j <;>
    simp [schemaCheck, jFields, DocumentTyped, Bool.and_eq_true, reqStr_iff,
      reqArr_iff, checkReportJ_iff, checkRespondeeJ_iff, and_assoc]

/-- C8 witness: the empty-client document is accepted and indeed merely typed. -/
theorem c8_witness :
    DocumentTyped (docJson
      { client_name := .str "", created_date := "2020-01-01",
        reports := [], respondees := [], unmatchedHeaders := [] }) :=
  (c8_amended _).mp rfl

/-- The string order used by `.sort()` is asymmetric. -/
theorem chLt_asymm : ∀ a b : List Char, chLt a b = true → chLt b a = false := by
  intro a
  induction a with
  | nil =>
    intro b hab
    cases b with
    | nil => simp [chLt] at hab
    | cons c t => simp [chLt]
  | cons c s ih =>
    intro b hab
    cases b with
    | nil => simp [chLt] at hab
    | cons d t =>
      unfold chLt at hab ⊢
      by_cases h : c = d
      · rw [if_pos h] at hab
        rw [if_pos h.symm]
        exact ih t hab
      · rw [if_neg h] at hab
        rw [if_neg (fun hh => h hh.symm)]
        simp at hab ⊢
        omega

/-- Inserting into a `.sort()`-ordered list keeps it ordered. -/
theorem insertSorted_chain (x : String) :
    ∀ l : List String, List.Chain' (fun a b => jsStrLt b a = false) l →
      List.Chain' (fun a b => jsStrLt b a = false) (insertSorted x l) := by
  intro l
  induction l with
  | nil => intro _; simp [insertSorted]
  | cons y t ih =>
    intro hch
    rw [List.chain'_cons'] at hch
    unfold insertSorted
    rcases hxy : jsStrLt x y with _ | _
    · rw [if_neg (by simp)]
      rw [List.chain'_cons']
      constructor
      · intro z hz
        cases t with
        | nil =>
          simp [insertSorted] at hz
          rw [← hz]
          exact hxy
        | cons w t2 =>
          unfold insertSorted at hz
          rcases hxw : jsStrLt x w with _ | _
          · rw [hxw, if_neg (by simp)] at hz
            simp at hz
            rw [← hz]
            exact hch.1 w (by simp)
          · rw [hxw, if_pos rfl] at hz
            simp at hz
            rw [← hz]
            exact hxy
      · exact ih hch.2
    · rw [if_pos rfl]
      rw [List.chain'_cons']
      constructor
      · intro z hz
        simp at hz
        rw [← hz]
        exact chLt_asymm x.data y.data hxy
      · rw [List.chain'_cons']
        exact hch

/-- `.sort()` output is ordered. -/
theorem sortJS_chain (l : List String) :
    List.Chain' (fun a b => jsStrLt b a = false) (sortJS l) := by
  induction l with
  | nil => simp [sortJS]
  | cons a t ih => exact insertSorted_chain a (sortJS t) ih


/-- `Set.add` keeps the insertion-ordered list duplicate-free. -/
theorem dedupAdd_nodup {α : Type} [DecidableEq α] (l : List α) (x : α) (h : l.Nodup) :
    (dedupAdd l x).Nodup := by
  unfold dedupAdd
  split_ifs with hmem
  · exact h
  · rw [List.nodup_append]
    exact ⟨h, List.nodup_singleton x, by simpa using hmem⟩

/-- Folding respondee names in keeps the set duplicate-free. -/
theorem companiesAddNames_nodup (d : Document) :
    ∀ l : List CellVal, l.Nodup → (companiesAddNames d l).Nodup := by
  unfold companiesAddNames
  induction d.respondees with
  | nil => intro l h; exact h
  | cons r rest ih =>
    intro l h
    rw [List.foldl_cons]
    split_ifs with ht
    · exact ih _ (dedupAdd_nodup l r.name h)
    · exact ih _ h

/-- Value-property preservation through `alSet`. -/
theorem alSet_prop {κ ν : Type} [DecidableEq κ] (P : ν → Prop) (k : κ) (v : ν)
    (m : List (κ × ν)) (hm : ∀ kc ∈ m, P kc.2) (hv : P v) :
    ∀ kc ∈ alSet k v m, P kc.2 := by
  intro kc hkc
  rcases alSet_cases k v m kc hkc with h | h
  · rw [h]
    exact hv
  · exact hm kc h

/-- Value-property preservation through `alModify`. -/
theorem alModify_prop {κ ν : Type} [DecidableEq κ] (P : ν → Prop) (k : κ) (f : ν → ν)
    (m : List (κ × ν)) (hm : ∀ kc ∈ m, P kc.2) (hf : ∀ v, P v → P (f v)) :
    ∀ kc ∈ alModify k f m, P kc.2 := by
  intro kc hkc
  rcases alModify_cases k f m kc hkc with h | ⟨v0, hv0, hkc2⟩
  · exact hm kc h
  · rw [hkc2]
    exact hf v0 (hm (kc.1, v0) hv0)

/-- Every accumulator entry of the company fold has duplicate-free respondents. -/
theorem companiesStep_nodup (m : List (String × CompanyAcc)) (d : Document)
    (hm : ∀ kc ∈ m, kc.2.respondents.Nodup) :
    ∀ kc ∈ companiesStep m d, kc.2.respondents.Nodup := by
  unfold companiesStep
  have hresp : ∀ kc ∈ companiesRespStep d m, kc.2.respondents.Nodup := by
    unfold companiesRespStep
    exact alModify_prop (fun v : CompanyAcc => v.respondents.Nodup) _ _ _
      (by
        split_ifs with hpresent
        · exact hm
        · exact alSet_prop (fun v : CompanyAcc => v.respondents.Nodup) _ _ _ hm (by simp))
      (fun v hv => companiesAddNames_nodup d v.respondents hv)
  split_ifs with hskip
  · exact hm
  · unfold companiesYearStep
    split_ifs with hdate
    · exact alModify_prop (fun v : CompanyAcc => v.respondents.Nodup) _ _ _ hresp (fun v hv => hv)
    · exact hresp

/-- Two Acme documents with respondent sets {A, B} and {B, C}: first-seen
deduplication, sorted years. -/
def docsAcme : List Document :=
  [⟨.str "Acme", "2023-01-01", [], [⟨.str "A", .str ""⟩, ⟨.str "B", .str ""⟩], []⟩,
   ⟨.str "Acme", "2024-06-01", [], [⟨.str "B", .str ""⟩, ⟨.str "C", .str ""⟩], []⟩]

/-- C9 amended: `compileCompaniesSummary` groups by client (skipping documents
with a falsy `client_name`), accumulates distinct respondent names and
distinct years (first 4 characters of `created_date`), and emits one entry
per client with the year set sorted and the respondent set deduplicated in
first-seen order (not sorted — see the counterexample): (1) every emitted
year sequence is sorted and every respondent sequence duplicate-free; (2) an
empty-client document contributes nothing; (3) the two-Acme-documents example
yields respondents [A, B, C] and years ["2023", "2024"]. -/
theorem c9_amended :
    (∀ docs : List Document, ∀ e ∈ compileCompaniesSummary docs,
      List.Chain' (fun a b => jsStrLt b a = false) e.years ∧ e.respondents.Nodup) ∧
    (∀ (d : Document) (docs : List Document), truthy d.client_name = false →
      compileCompaniesSummary (d :: docs) = compileCompaniesSummary docs) ∧
    compileCompaniesSummary docsAcme =
      [⟨.str "Acme", [.str "A", .str "B", .str "C"], ["2023", "2024"]⟩] := by
  refine ⟨?_, ?_, by decide⟩
  · intro docs e he
    unfold compileCompaniesSummary at he
    rcases List.mem_map.mp he with ⟨kc, hkc, hkc2⟩
    have hnodup : ∀ kc2 ∈ docs.foldl companiesStep [], kc2.2.respondents.Nodup := by
      have hgen : ∀ (ds : List Document) (m : List (String × CompanyAcc)),
          (∀ kc2 ∈ m, kc2.2.respondents.Nodup) →
          ∀ kc2 ∈ ds.foldl companiesStep m, kc2.2.respondents.Nodup := by
        intro ds
        induction ds with
        | nil => intro m hm; exact hm
        | cons d rest ih =>
          intro m hm
          rw [List.foldl_cons]
          exact ih _ (companiesStep_nodup m d hm)
      exact hgen docs [] (by intro kc2 hkc2; simp at hkc2)
    constructor
    · rw [← hkc2]
      exact sortJS_chain kc.2.years
    · rw [← hkc2]
      exact hnodup kc hkc
  · intro d docs hfalsy
    unfold compileCompaniesSummary
    rw [List.foldl_cons]
    have hstep : companiesStep [] d = [] := by
      unfold companiesStep
      rw [if_pos (by simp [hfalsy])]
    rw [hstep]

/-- C9 witness: part 1 at the Acme inputs and part 2 at a falsy-client
document. -/
theorem c9_witness :
    (List.Chain' (fun a b => jsStrLt b a = false) ["2023", "2024"] ∧
      ([CellVal.str "A", CellVal.str "B", CellVal.str "C"] : List CellVal).Nodup) ∧
    compileCompaniesSummary (⟨.str "", "2020-01-01", [], [], []⟩ :: docsAcme) =
      compileCompaniesSummary docsAcme :=
  ⟨c9_amended.1 docsAcme ⟨.str "Acme", [.str "A", .str "B", .str "C"], ["2023", "2024"]⟩
      (by decide),
   c9_amended.2.1 ⟨.str "", "2020-01-01", [], [], []⟩ docsAcme (by decide)⟩

/-- Fold congruence for pointwise-equal steps over the traversed list. -/
theorem foldl_congr_mem {α β : Type} :
    ∀ (l : List α) (f g : β → α → β) (i : β),
      (∀ a ∈ l, ∀ acc, f acc a = g acc a) → l.foldl f i = l.foldl g i := by
  intro l
  induction l with
  | nil => intro f g i _; rfl
  | cons a t ih =>
    intro f g i h
    rw [List.foldl_cons, List.foldl_cons, h a (List.mem_cons_self _ _)]
    exact ih f g _ (fun x hx acc => h x (List.mem_cons_of_mem _ hx) acc)

/-- With every metadata row at least 2 cells wide, the two metadata scans agree
(the XLSX short-row skip never fires). -/
theorem scanDetails_eq (rows : List (List CellVal))
    (h : ∀ row ∈ rows, 2 ≤ row.length) :
    scanDetailsX rows = scanDetailsE rows := by
  unfold scanDetailsX scanDetailsE
  apply foldl_congr_mem
  intro row hrow acc
  rw [if_neg (Nat.not_lt.mpr (h row hrow))]

/-- On a truthy header cell the two header-field mappings agree. -/
theorem headerField_eq (h : CellVal) (ht : truthy h = true) :
    headerFieldE h = headerFieldX h := by
  unfold headerFieldE
  rw [if_pos ht]

/-- On the empty question map the two question-map steps agree. -/
theorem qStep_empty_eq (st : RowState) : qStepX [] st = qStepE [] st := by
  simp [qStepX, qStepE, alGet?]

/-- On a single data row starting from an empty question map the two sheet
passes agree. -/
theorem runRows_single_eq (hs : List String) (r : List CellVal) (st0 : RowState)
    (rm : List (CellVal × Respondee)) :
    runRows qStepX hs [r] ⟨st0, rm, []⟩ = runRows qStepE hs [r] ⟨st0, rm, []⟩ := by
  unfold runRows
  rw [List.foldl_cons, List.foldl_nil, List.foldl_cons, List.foldl_nil]
  unfold runRowsStep
  split_ifs with hacc hget
  · simp only [qStep_empty_eq]
  · simp only [qStep_empty_eq]
  · rfl

/-- With exactly one data row and truthy header cells the two data-sheet
passes agree. -/
theorem processDataSheet_eq (acc : DocAcc) (s : Sheet)
    (hlen : s.rows.length = 2)
    (hhdr : ∀ h ∈ headerRow s, truthy h = true) :
    processDataSheetX acc s = processDataSheetE acc s := by
  have hhs : (headerRow s).map headerFieldE = (headerRow s).map headerFieldX := by
    apply List.map_congr_left
    intro h hh
    exact headerField_eq h (hhdr h hh)
  rcases hrows : s.rows with _ | ⟨a, t⟩
  · rw [hrows] at hlen
    simp at hlen
  · rcases t with _ | ⟨b, t2⟩
    · rw [hrows] at hlen
      simp at hlen
    · rcases t2 with _ | ⟨c, t3⟩
      · unfold processDataSheetX processDataSheetE
        rw [if_neg (by rw [hrows]; simp)]
        rw [hhs]
        have hdrop : s.rows.drop 1 = [b] := by rw [hrows]; rfl
        rw [hdrop]
        simp only [runRows_single_eq]
      · rw [hrows] at hlen
        simp at hlen

/-- With 2-row data sheets and truthy header cells the two unmatched-header
collectors agree. -/
theorem unmatchedHeaders_eq (wb : Workbook)
    (hlen : ∀ s ∈ wb.drop 1, s.rows.length = 2)
    (hhdr : ∀ s ∈ wb.drop 1, ∀ h ∈ headerRow s, truthy h = true) :
    unmatchedHeadersX wb = unmatchedHeadersE wb := by
  unfold unmatchedHeadersX unmatchedHeadersE
  apply foldl_congr_mem
  intro s hs acc
  rw [if_neg (by rw [hlen s hs]; omega)]
  apply foldl_congr_mem
  intro h hh acc2
  rcases hm : mapHeader h with _ | f
  · simp [hm, hhdr s hs h hh]
  · simp [hm]

/-- C2 amended: the two parser implementations agree on every decoded workbook
whose metadata rows all have at least 2 cells, whose data sheets each hold
exactly one data row beneath the header, and whose header cells are all
truthy.  In general they are *not* equivalent (see the counterexample): on a
repeated grouping key the XLSX parser keeps only the last accepted row's
Response while the ExcelJS parser accumulates them all; a data sheet with
fewer than 2 rows yields no report in the XLSX parser but an empty report in
the ExcelJS one; a falsy header cell or a short metadata row is skipped by one
implementation and processed by the other. -/
theorem c2_amended :
    ∀ wb : Workbook,
      (∀ row ∈ (sheet0 wb).rows, 2 ≤ row.length) →
      (∀ s ∈ wb.drop 1, s.rows.length = 2) →
      (∀ s ∈ wb.drop 1, ∀ h ∈ headerRow s, truthy h = true) →
      parseX wb = parseE wb := by
  intro wb hdet hlen hhdr
  have hscan : scanDetailsX (sheet0 wb).rows = scanDetailsE (sheet0 wb).rows :=
    scanDetails_eq _ hdet
  have hfold : ∀ i : DocAcc,
      (wb.drop 1).foldl processDataSheetX i = (wb.drop 1).foldl processDataSheetE i := by
    intro i
    apply foldl_congr_mem
    intro s hs acc
    exact processDataSheet_eq acc s (hlen s hs) (hhdr s hs)
  have hunm : unmatchedHeadersX wb = unmatchedHeadersE wb :=
    unmatchedHeaders_eq wb hlen hhdr
  unfold parseX parseE
  simp only [← hscan, ← hfold, ← hunm]

/-- A workbook satisfying all three agreement conditions. -/
def wbOneRow : Workbook :=
  [⟨"D", [[.str "Client Name", .str "Acme"], [.str "Created", .str "2023-01-01"]]⟩,
   ⟨"S", [[.str "Respondent", .str "Response"], [.str "A", .num 4]]⟩]

/-- C2 witness: the restricted equivalence at a concrete workbook. -/
theorem c2_witness : parseX wbOneRow = parseE wbOneRow :=
  c2_amended wbOneRow (by decide) (by decide) (by decide)
